import Mathlib

/-!
Verification of the Dopynion decision agent (a FastAPI service that answers
a Dominion-style game server with decision strings).

The Lean definitions below are shallow embeddings of the Python sources:

* `src/app/routers/game.py` — the live router: per-match turn state, the
  action pickers, the buy pipeline and the `/play` orchestrator
  (namespace `Router`);
* `src/app/strategy/utils.py` — `terminal_capacity` and the defensive
  accessors (namespace `Utils`);
* `src/app/strategy/buys.py`, `src/app/strategy/pipeline.py`,
  `src/app/strategy/strategies.py` — the strategy-package pipeline and the
  strategy registry (namespace `Strat`).

Modelling conventions:

* a Python dict that is only read through `.get(k, default)` becomes a total
  function (`String → Nat` or `String → Int`); a dict whose keys are
  iterated (a hand) becomes an association list read by `qget`;
* the decision strings `"ACTION c"`, `"BUY c"`, `"END_TURN"` become the
  inductive `Decision` (every card token the code emits is a lowercase
  single word, so the `split/strip/lower` reparse in `/play` is the
  identity on it);
* machine integers are `Int` (Python ints do not overflow); supply and hand
  counts are `Nat` (dopynion quantities are card counts);
* a reachable Python exception becomes `Except Unit` with `.error ()`:
  `pipeline.py` uses the name `COSTS` without importing it, so reaching
  that expression raises `NameError`, and `/play` indexes
  `game.players[me_idx]` which raises `IndexError` when the player list is
  empty.
-/

/-- A decision string returned to the game server: `"ACTION <card>"`,
`"BUY <card>"` or `"END_TURN"`. -/
inductive Decision where
  | ACTION (card : String)
  | BUY (card : String)
  | END_TURN
  deriving DecidableEq

/-- The per-turn phase stored in the mutable state dict (`state["phase"]`). -/
inductive Phase where
  | ACTION
  | BUY
  deriving DecidableEq

/-- `q.get(k, 0)` on a Python dict modelled as an association list. -/
def qget (q : List (String × Nat)) (k : String) : Nat :=
  match q.find? (fun p => p.1 == k) with
  | some p => p.2
  | none => 0

/-- One entry of `game.players`: only the fields the agent reads.  `hand` is
`None` for opponents (`Option`); `score` may be absent or `None`. -/
structure Player where
  name : Option String
  score : Option Int
  hand : Option (List (String × Nat))

/-- The game snapshot the server posts to `/play`: the player list and the
supply (`game.stock.quantities`, read only through `.get(card, 0)`). -/
structure Game where
  players : List Player
  stock : String → Nat

/-- The `COSTS` table (identical dict literal in `src/app/routers/game.py`
and `src/app/strategy/constants.py`). -/
def COSTS : List (String × Nat) := [
  ("province", 8), ("duchy", 5), ("estate", 2), ("gold", 6), ("silver", 3), ("copper", 0),
  ("laboratory", 5), ("market", 5), ("festival", 5), ("village", 3), ("smithy", 4),
  ("woodcutter", 3), ("port", 4), ("poacher", 4), ("cellar", 2), ("farmingvillage", 4),
  ("gardens", 4),
  ("chapel", 2), ("moneylender", 4), ("remodel", 4), ("remake", 4), ("workshop", 3),
  ("feast", 4), ("mine", 5), ("witch", 5), ("militia", 4), ("bandit", 5), ("bureaucrat", 4),
  ("councilroom", 5), ("library", 5), ("adventurer", 6), ("magpie", 4), ("hireling", 6),
  ("distantshore", 6), ("marquis", 6)]

/-- `COSTS.get(card, 0)` (the default used by the `/play` post-buy update). -/
def cost0 (c : String) : Nat := qget COSTS c

/-- `card in COSTS` (key membership). -/
def inCosts (c : String) : Bool := (COSTS.find? (fun p => p.1 == c)).isSome

/-- `ACTION_COIN_BONUS` (identical in `game.py` and `constants.py`). -/
def ACTION_COIN_BONUS : List (String × Nat) :=
  [("market", 1), ("festival", 2), ("woodcutter", 2), ("moneylender", 3), ("chancellor", 2),
   ("poacher", 1), ("farmingvillage", 2)]

/-- `ACTION_PLUS_ACTIONS` (identical in `game.py` and `constants.py`). -/
def ACTION_PLUS_ACTIONS : List (String × Nat) :=
  [("village", 2), ("market", 1), ("laboratory", 1), ("festival", 2), ("port", 2),
   ("cellar", 1), ("farmingvillage", 2), ("distantshore", 1), ("magpie", 1), ("poacher", 1)]

/-- `ACTION_BUY_BONUS` (identical in `game.py` and `constants.py`). -/
def ACTION_BUY_BONUS : List (String × Nat) :=
  [("market", 1), ("woodcutter", 1), ("festival", 1), ("councilroom", 1)]

/-- `ACTION_COIN_BONUS.get(c, 0)`. -/
def coinBonus (c : String) : Int := (qget ACTION_COIN_BONUS c : Int)

/-- `ACTION_PLUS_ACTIONS.get(c, 0)`. -/
def plusActionsOf (c : String) : Int := (qget ACTION_PLUS_ACTIONS c : Int)

/-- `ACTION_BUY_BONUS.get(c, 0)`. -/
def buyBonusOf (c : String) : Int := (qget ACTION_BUY_BONUS c : Int)

/-- `CARD_PRIORITY` is a `defaultdict(lambda: 0, {...})`: a total function
with default 0. -/
def CARD_PRIORITY_TABLE : List (String × Nat) :=
  [("province", 100), ("gold", 80), ("laboratory", 70), ("market", 62), ("festival", 58),
   ("smithy", 55), ("village", 40), ("duchy", 35), ("gardens", 32), ("silver", 30),
   ("estate", 10), ("copper", 5)]

def CARD_PRIORITY (c : String) : Int := (qget CARD_PRIORITY_TABLE c : Int)

/-- `JUNK = {"estate", "curse"}`. -/
def JUNK : List String := ["estate", "curse"]

-- Numeric thresholds (identical in `game.py` and `constants.py`).
def BUY_PROVINCE_COINS : Int := 8
def BUY_GOLD_COINS : Int := 6
def BUY_5_COST_COINS : Int := 5
def BUY_4_COST_COINS : Int := 4
def BUY_SILVER_COINS : Int := 3
def ENDGAME_PROVINCE_THRESHOLD : Int := 2
def MIDGAME_PROVINCE_THRESHOLD : Int := 4
def RUSH_TURN : Int := 145
def MIN_GREEN_TURN : Int := 14
def PROVINCE_SOFT_CAP_BEFORE_TURN : Int := 20
def PROVINCES_ALLOWED_BEFORE_CAP : Int := 2
def MAX_LABS : Int := 3
def ENGINE_GOLD_THRESHOLD : Int := 2
def ENGINE_LAB_THRESHOLD : Int := 2
def ENGINE_MF_SUM_THRESHOLD : Int := 2
def MIN_COPPER_TRASH : Nat := 2
def OPENING_TURN_LIMIT : Int := 3
def COINS_EQ_3 : Int := 3
def COINS_EQ_4 : Int := 4
def COINS_EQ_5 : Int := 5
def BEHIND_DUCHY_DEFICIT : Int := 6
def EARLY_PROVINCE_STOCK : Int := 6
def MAX_SMITHIES : Int := 2
def GARDENS_EARLY_STOCK : Int := 8
def EARLY_HIRELING_TURN : Int := 10

/-- The per-match mutable state dict (`TURN_STATE[game_id]`), with every key
the final code reads; `.get(key, default)` reads become field reads and
`gardens_plan`, set once per match, is `Option Bool` (`none` = key absent). -/
structure TState where
  bought : Bool
  counts : String → Int
  buys_left : Int
  coins_left : Int
  initialized_resources : Bool
  phase : Phase
  actions_left : Int
  action_coins : Int
  extra_buys : Int
  turn : Int
  gardens_plan : Option Bool

/-- `_in_stock` / `utils.in_stock`: `(stock.quantities or {}).get(card, 0) > 0`
(the `.lower()` in utils is the identity on the lowercase literals used). -/
def in_stock (g : Game) (card : String) : Bool := decide (0 < g.stock card)

namespace Utils

/-- `terminal_capacity` from `src/app/strategy/utils.py` (lines 281-319):
the weighted sum of owned `+actions` producers minus the count of owned
terminals.  Note there is no `1 +` base term in this function. -/
def terminal_capacity (counts : String → Int) : Int :=
  let plus_actions :=
    2 * counts "village" + 1 * counts "market" + 1 * counts "laboratory" +
    2 * counts "festival" + 2 * counts "port" + 1 * counts "poacher" +
    1 * counts "cellar" + 2 * counts "farmingvillage" + 1 * counts "magpie"
  let terminals :=
    counts "smithy" + counts "witch" + counts "militia" + counts "bandit" +
    counts "bureaucrat" + counts "chancellor" + counts "woodcutter" +
    counts "moneylender" + counts "remodel" + counts "remake" + counts "mine" +
    counts "feast" + counts "workshop"
  plus_actions - terminals

end Utils

namespace Router

/-- `_terminal_capacity` from `src/app/routers/game.py` (lines 60-71):
`1 + plus_actions - terminals` with `TERMINAL_ACTIONS = {smithy, woodcutter}`. -/
def terminal_capacity (state_counts : String → Int) : Int :=
  let terminals := state_counts "smithy" + state_counts "woodcutter"
  let plus_actions :=
    state_counts "village" * 2 + state_counts "market" * 1 +
    state_counts "festival" * 2 + state_counts "laboratory" * 1
  1 + plus_actions - terminals

end Router

/-- The counts mapping `{village: 1, smithy: 1}` of spec Scenario F (all other
cards 0, as in the repository's unit test `test_terminal_capacity_simple`). -/
def villageSmithyCounts : String → Int :=
  fun c => if c = "village" then 1 else if c = "smithy" then 1 else 0

/-- C2 (code bug): on `{village: 1, smithy: 1}` the strategy-package
`terminal_capacity` returns `2*1 - 1 = 1`, not the `2` the spec formula
(base 1 + 2x village - 1x smithy) and the repository's own unit test
require; the router-internal `_terminal_capacity`, which does add the
native-action base 1, returns 2 on the same input. -/
theorem terminal_capacity_base_divergence :
    Utils.terminal_capacity villageSmithyCounts = 1 ∧
    Router.terminal_capacity villageSmithyCounts = 2 ∧
    Utils.terminal_capacity villageSmithyCounts ≠ 2 := by
  refine ⟨by decide, by decide, by decide⟩

/-! ## The worst-card selector used by the forced-discard / forced-trash routes -/

/-- The sort key of `_worst_in_hand` (`game.py` lines 391-402): junk cards in
bucket 0, copper in bucket 1, everything else in bucket 2; priority value
second. -/
def wscore (c : String) : Nat × Int :=
  if c ∈ JUNK then (0, CARD_PRIORITY c)
  else if c = "copper" then (1, CARD_PRIORITY c)
  else (2, CARD_PRIORITY c)

/-- Python's tuple `<=` on the sort keys (lexicographic). -/
def wkeyLE (a b : String) : Prop :=
  (wscore a).1 < (wscore b).1 ∨
  ((wscore a).1 = (wscore b).1 ∧ (wscore a).2 ≤ (wscore b).2)

instance : DecidableRel wkeyLE := fun a b => by
  unfold wkeyLE; exact inferInstance

namespace Router

/-- `_worst_in_hand` (`game.py` lines 391-402): `sorted(hand, key=score)[0]`.
Python's `sorted` is a stable ascending sort (modelled by the stable
`insertionSort`); taking `[0]` of an empty list raises `IndexError`, so the
empty hand yields `none` rather than a card name. -/
def worst_in_hand (hand : List String) : Option String :=
  (List.insertionSort wkeyLE hand).head?

end Router

/-- C3 counterexample: on the empty hand the selector produces no card name
at all (the source raises `IndexError` on `sorted([])[0]`), contrary to the
claim that a safe default treasure name is returned. -/
theorem worst_in_hand_empty_none : Router.worst_in_hand [] = none := rfl

/-- C3 (amended): for every non-empty hand, `_worst_in_hand` returns a card
that is present in that hand; the empty hand yields no card (the source
raises), not a safe default. -/
theorem worst_in_hand_nonempty_member (hand : List String) (h : hand ≠ []) :
    ∃ c, Router.worst_in_hand hand = some c ∧ c ∈ hand := by
  have hp : List.Perm (List.insertionSort wkeyLE hand) hand :=
    List.perm_insertionSort wkeyLE hand
  cases hs : List.insertionSort wkeyLE hand with
  | nil =>
    rw [hs] at hp
    exact absurd (List.perm_nil.mp hp.symm) h
  | cons a t =>
    refine ⟨a, ?_, ?_⟩
    · simp [Router.worst_in_hand, hs]
    · exact hp.subset (by rw [hs]; exact List.mem_cons_self a t)

/-- C3 witness: the non-empty hand of the repository's own unit test. -/
theorem worst_in_hand_nonempty_member_witness :
    ∃ c, Router.worst_in_hand ["estate", "copper", "village"] = some c ∧
      c ∈ ["estate", "copper", "village"] :=
  worst_in_hand_nonempty_member ["estate", "copper", "village"] (by decide)

/-! ## Seat resolution (`_find_me`) -/

/-- The team name constant (`TEAM_NAME` in `game.py` and `constants.py`). -/
def TEAM_NAME : String := "Equipe3MaGueule"

/-- Character-list test: `pat` is an initial segment of the second list. -/
def startsWithChars : List Char → List Char → Bool
  | [], _ => true
  | _ :: _, [] => false
  | a :: as, b :: bs => a == b && startsWithChars as bs

/-- Character-list test: `pat` occurs contiguously in the list. -/
def hasSubChars (pat : List Char) : List Char → Bool
  | [] => pat.isEmpty
  | c :: cs => startsWithChars pat (c :: cs) || hasSubChars pat cs

/-- Python's `pat in hay` on strings (substring containment). -/
def strHasSub (hay pat : String) : Bool := hasSubChars pat.data hay.data

/-- The name test of `_find_me` step 1:
`getattr(p, "name", None) and TEAM_NAME in p.name` (a `None` or empty name is
falsy and is skipped). -/
def nameHasTeam (p : Player) : Bool :=
  match p.name with
  | none => false
  | some n => (n != "") && strHasSub n TEAM_NAME

namespace Router

/-- The `for i, p in enumerate(game.players)` scan of `_find_me` step 1,
carrying the running index. -/
def nameIdxFrom : Nat → List Player → Option Nat
  | _, [] => none
  | i, p :: ps => if nameHasTeam p then some i else nameIdxFrom (i + 1) ps

/-- The `with_hand` comprehension of `_find_me` step 2: indices of players
whose `hand` attribute is truthy (present). -/
def handIdxFrom : Nat → List Player → List Nat
  | _, [] => []
  | i, p :: ps =>
    if p.hand.isSome then i :: handIdxFrom (i + 1) ps else handIdxFrom (i + 1) ps

/-- `_find_me` (`game.py` lines 466-485): team-name match first, then the
unique player with a hand, then `1 if len(game.players) > 1 else 0`.  Note
the final fallback returns the integer 0 even when `players` is empty. -/
def find_me (g : Game) : Nat :=
  match nameIdxFrom 0 g.players with
  | some i => i
  | none =>
    match handIdxFrom 0 g.players with
    | [i] => i
    | _ => if 1 < g.players.length then 1 else 0

end Router

/-- Clauses (a)-(c) of the claim's seat rule, written with the library
combinators: first index whose name contains the team tag; else the unique
player with a populated hand; else index 1 when at least two players exist,
otherwise index 0. -/
def find_seat_claim (g : Game) : Nat :=
  match g.players.findIdx? nameHasTeam with
  | some i => i
  | none =>
    if (g.players.filter (fun p => p.hand.isSome)).length = 1 then
      (g.players.findIdx? (fun p => p.hand.isSome)).getD 0
    else if 1 < g.players.length then 1 else 0

theorem nameIdxFrom_eq_findIdx? (i : Nat) (ps : List Player) :
    Router.nameIdxFrom i ps = ps.findIdx? nameHasTeam i := by
  induction ps generalizing i with
  | nil => rfl
  | cons p ps ih => simp [Router.nameIdxFrom, List.findIdx?_cons, ih]

theorem handIdxFrom_length (i : Nat) (ps : List Player) :
    (Router.handIdxFrom i ps).length = (ps.filter (fun p => p.hand.isSome)).length := by
  induction ps generalizing i with
  | nil => rfl
  | cons p ps ih =>
    by_cases hp : p.hand.isSome <;>
      simp [Router.handIdxFrom, hp, List.filter_cons, ih]

theorem handIdxFrom_head? (i : Nat) (ps : List Player) :
    (Router.handIdxFrom i ps).head? = ps.findIdx? (fun p => p.hand.isSome) i := by
  induction ps generalizing i with
  | nil => rfl
  | cons p ps ih =>
    by_cases hp : p.hand.isSome <;>
      simp [Router.handIdxFrom, hp, List.findIdx?_cons, ih]

/-- C4 (amended): seat resolution follows clauses (a)-(c) of the claim for
every snapshot; on an empty players list the code falls into clause (c)'s
"else" and returns the index 0 instead of reporting NotFound. -/
theorem find_me_matches_spec (g : Game) : Router.find_me g = find_seat_claim g := by
  unfold Router.find_me find_seat_claim
  rw [nameIdxFrom_eq_findIdx?]
  cases hn : g.players.findIdx? nameHasTeam with
  | some i => rfl
  | none =>
    have hlen := handIdxFrom_length 0 g.players
    have hhead := handIdxFrom_head? 0 g.players
    cases hh : Router.handIdxFrom 0 g.players with
    | nil =>
      rw [hh] at hlen
      simp only [List.length_nil] at hlen
      have hc : ¬((g.players.filter (fun p => p.hand.isSome)).length = 1) := by omega
      rw [if_neg hc]
    | cons a t =>
      cases t with
      | nil =>
        rw [hh] at hlen hhead
        simp only [List.length_cons, List.length_nil, List.head?_cons] at hlen hhead
        have hc : (g.players.filter (fun p => p.hand.isSome)).length = 1 := by omega
        rw [if_pos hc, ← hhead]
        rfl
      | cons b t2 =>
        rw [hh] at hlen
        simp only [List.length_cons] at hlen
        have hc : ¬((g.players.filter (fun p => p.hand.isSome)).length = 1) := by omega
        rw [if_neg hc]

/-- The snapshot with an empty players list. -/
def gEmptyPlayers : Game := { players := [], stock := fun _ => 0 }

/-- C4 counterexample: with no players at all, `_find_me` still returns the
index 0 (`1 if len > 1 else 0`), it does not report NotFound. -/
theorem find_me_empty_returns_index :
    Router.find_me gEmptyPlayers = 0 ∧ gEmptyPlayers.players.length = 0 :=
  ⟨rfl, rfl⟩

/-! ## Shared buy helpers (identical in `routers/game.py` and `strategy/buys.py`) -/

/-- `FIVE_COST_PREFER` (identical in `game.py` and `constants.py`). -/
def FIVE_COST_PREFER : List String := ["laboratory", "market", "festival"]

/-- `_engine_ready` (`game.py` lines 240-253) = `engine_ready` (`buys.py`
lines 35-47): the two functions are textually identical. -/
def engine_ready (counts : String → Int) : Bool :=
  if ENGINE_GOLD_THRESHOLD ≤ counts "gold" then true
  else if ENGINE_LAB_THRESHOLD ≤ counts "laboratory" then true
  else if ENGINE_MF_SUM_THRESHOLD ≤ counts "market" + counts "festival" then true
  else if 1 ≤ counts "village" ∧
      1 ≤ counts "smithy" + counts "councilroom" + counts "library" then true
  else false

/-- `_early_province_ok` (`game.py` lines 200-230, result-variable style) =
`early_province_ok` (`buys.py` lines 50-72, early-return style); the two
encode the same decision chain over the same constants. -/
def early_province_ok (counts : String → Int) (provinces_left turn score_gap : Int) : Bool :=
  if RUSH_TURN ≤ turn then true
  else if provinces_left ≤ EARLY_PROVINCE_STOCK then true
  else if engine_ready counts then true
  else if turn < MIN_GREEN_TURN ∧ -BEHIND_DUCHY_DEFICIT < score_gap then false
  else if turn < PROVINCE_SOFT_CAP_BEFORE_TURN ∧
      PROVINCES_ALLOWED_BEFORE_CAP ≤ counts "province" then false
  else if score_gap ≤ -BEHIND_DUCHY_DEFICIT then true
  else if MIN_GREEN_TURN ≤ turn then true
  else false

/-- `_endgame_buy` (`game.py`) = `endgame_buy` (`buys.py`): identical.
The `my_score`/`best_opp` parameters are unused there too. -/
def endgame_buy (g : Game) (coins provinces_left my_score best_opp turn : Int) :
    Option Decision :=
  if RUSH_TURN ≤ turn then
    if BUY_PROVINCE_COINS ≤ coins ∧ 0 < g.stock "province" then some (.BUY "province")
    else if BUY_5_COST_COINS ≤ coins ∧ in_stock g "duchy" then some (.BUY "duchy")
    else if BUY_SILVER_COINS ≤ coins ∧ in_stock g "estate" then some (.BUY "estate")
    else none
  else if provinces_left ≤ ENDGAME_PROVINCE_THRESHOLD then
    if BUY_PROVINCE_COINS ≤ coins ∧ 0 < g.stock "province" then some (.BUY "province")
    else if BUY_5_COST_COINS ≤ coins ∧ in_stock g "duchy" then some (.BUY "duchy")
    else if BUY_SILVER_COINS ≤ coins ∧ in_stock g "estate" then some (.BUY "estate")
    else none
  else none

/-- `_midgame_buy` (`game.py`) = `midgame_buy` (`buys.py`): identical.  The
source's two sequential `if` blocks are flattened to an equivalent
else-if chain (a failed inner condition falls through to the behind-check in
both renderings). -/
def midgame_buy (g : Game) (coins provinces_left my_score best_opp turn : Int) :
    Option Decision :=
  if RUSH_TURN ≤ turn ∧ BUY_PROVINCE_COINS ≤ coins ∧ in_stock g "province" then
    some (.BUY "province")
  else if provinces_left ≤ MIDGAME_PROVINCE_THRESHOLD ∧ BUY_PROVINCE_COINS ≤ coins ∧
      in_stock g "province" then some (.BUY "province")
  else if provinces_left ≤ MIDGAME_PROVINCE_THRESHOLD ∧ BUY_5_COST_COINS ≤ coins ∧
      in_stock g "duchy" ∧ my_score ≤ best_opp then some (.BUY "duchy")
  else if BEHIND_DUCHY_DEFICIT ≤ best_opp - my_score ∧ BUY_5_COST_COINS ≤ coins ∧
      in_stock g "duchy" then some (.BUY "duchy")
  else none

/-- `_economy_buy` (`game.py`) = `economy_buy` (`buys.py`): identical. -/
def economy_buy (g : Game) (coins : Int) : Option Decision :=
  if BUY_GOLD_COINS ≤ coins ∧ 0 < g.stock "gold" then some (.BUY "gold") else none

/-- `_three_cost_buy` (`game.py`) = `three_cost_buy` (`buys.py`): identical. -/
def three_cost_buy (g : Game) (coins : Int) : Option Decision :=
  if COINS_EQ_3 ≤ coins then
    match ["workshop", "village", "woodcutter"].find? (fun c => in_stock g c) with
    | some c => some (.BUY c)
    | none => if in_stock g "silver" then some (.BUY "silver") else none
  else none

/-- `_opening_buy_5plus` (`game.py`) = `opening_buy_5plus` (`buys.py`). -/
def opening_buy_5plus (g : Game) : Option Decision :=
  if 0 < g.stock "curse" ∧ in_stock g "witch" then some (.BUY "witch")
  else
    match ["laboratory", "market", "festival", "councilroom"].find? (fun c => in_stock g c) with
    | some c => some (.BUY c)
    | none => none

/-- `_opening_buy_4` (`game.py`) = `opening_buy_4` (`buys.py`). -/
def opening_buy_4 (g : Game) : Option Decision :=
  match ["moneylender", "militia", "smithy", "remodel", "remake", "poacher",
      "port"].find? (fun c => in_stock g c) with
  | some c => some (.BUY c)
  | none =>
    if in_stock g "village" then some (.BUY "village")
    else if in_stock g "silver" then some (.BUY "silver")
    else none

/-- `_opening_buy_3` (`game.py`) = `opening_buy_3` (`buys.py`). -/
def opening_buy_3 (g : Game) : Option Decision :=
  match ["workshop", "village", "woodcutter"].find? (fun c => in_stock g c) with
  | some c => some (.BUY c)
  | none => if in_stock g "silver" then some (.BUY "silver") else none

/-- `_opening_buy_2` (`game.py`) = `opening_buy_2` (`buys.py`). -/
def opening_buy_2 (g : Game) (counts : String → Int) : Option Decision :=
  if counts "chapel" = 0 ∧ in_stock g "chapel" then some (.BUY "chapel")
  else if in_stock g "cellar" then some (.BUY "cellar")
  else if in_stock g "estate" then some (.BUY "estate")
  else none

/-- The `pick = ...; if pick: return pick` sequencing used by
`_opening_buys`: the first non-null option wins. -/
def orElseO (a b : Option Decision) : Option Decision :=
  match a with
  | some d => some d
  | none => b

/-- `_opening_buys` (`game.py`) = `opening_buys` (`buys.py`): each price
bracket is tried and a non-null pick returned at once
(`coins == BUY_4_COST_COINS - 2` is the 2-coin bracket). -/
def opening_buys (g : Game) (coins : Int) (counts : String → Int) (turn : Int) :
    Option Decision :=
  if OPENING_TURN_LIMIT < turn then none
  else
    orElseO (if COINS_EQ_5 ≤ coins then opening_buy_5plus g else none)
      (orElseO (if coins = COINS_EQ_4 then opening_buy_4 g else none)
        (orElseO (if coins = COINS_EQ_3 then opening_buy_3 g else none)
          (if coins = BUY_4_COST_COINS - 2 then opening_buy_2 g counts else none)))

/-! ## The live router pipeline (`src/app/routers/game.py`) -/

namespace Router

/-- `_score_status`: `(my_score, best_opponent_score)`; scores read as
`getattr(p, "score", 0) or 0`, opponents are all other indices, and Python's
`max(opp_scores) if opp_scores else 0` is a true maximum of the list.
`game.players[me_idx]` raises `IndexError` out of range; `Router.play` only
calls this with the in-range index `_find_me` returns (the default player is
never reached there). -/
def score_status (g : Game) (me_idx : Nat) : Int × Int :=
  let my := ((g.players.get? me_idx).getD ⟨none, none, none⟩).score.getD 0
  let opps := (g.players.enum.filter (fun ip => ip.1 != me_idx)).map (fun ip => ip.2.score.getD 0)
  (my, match opps with | [] => 0 | x :: xs => xs.foldl max x)

/-- `_compute_treasure_coins`: coins of the treasures currently in hand. -/
def compute_treasure_coins (g : Game) (me_idx : Nat) : Int :=
  let me := (g.players.get? me_idx).getD ⟨none, none, none⟩
  let q := me.hand.getD []
  (qget q "copper" : Int) * 1 + (qget q "silver" : Int) * 2 + (qget q "gold" : Int) * 3

/-- `_should_pivot_to_gardens` (`game.py` lines 494-510). -/
def should_pivot_to_gardens (g : Game) (me_idx : Nat) : Bool :=
  if !(in_stock g "gardens") then false
  else if (g.stock "province" : Int) < GARDENS_EARLY_STOCK then false
  else
    let ms := score_status g me_idx
    decide (ms.1 - ms.2 ≤ -BEHIND_DUCHY_DEFICIT) || in_stock g "market" || in_stock g "festival"

/-- `_five_wishlist_curses` (`game.py`). -/
def five_wishlist_curses (g : Game) : List String :=
  if 0 < g.stock "curse" ∧ in_stock g "witch" then ["witch"] else []

/-- `_five_wishlist_labs` (`game.py`). -/
def five_wishlist_labs (g : Game) (counts : String → Int) : List String :=
  if in_stock g "laboratory" ∧ counts "laboratory" < MAX_LABS then ["laboratory"] else []

/-- `_five_need_actions` (`game.py`): uses the router's `_terminal_capacity`. -/
def five_need_actions (counts : String → Int) : Bool :=
  decide (terminal_capacity counts ≤ 0)

/-- `_five_wishlist_need_actions` (`game.py`). -/
def five_wishlist_need_actions (g : Game) (counts : String → Int) (coins : Int) : List String :=
  if five_need_actions counts then
    (if in_stock g "market" then ["market"] else []) ++
    (if in_stock g "festival" then ["festival"] else []) ++
    (if in_stock g "village" ∧ BUY_4_COST_COINS ≤ coins then ["village"] else [])
  else []

/-- `_five_wishlist_gardens_line` (`game.py`). -/
def five_wishlist_gardens_line (g : Game) (gardens_plan : Bool) : List String :=
  if gardens_plan then ["market", "festival", "laboratory"].filter (fun c => in_stock g c)
  else []

/-- `_five_wishlist_defaults` (`game.py`). -/
def five_wishlist_defaults (g : Game) : List String :=
  FIVE_COST_PREFER.filter (fun c => in_stock g c)

/-- `_five_wishlist_fallback` (`game.py`). -/
def five_wishlist_fallback (g : Game) : List String :=
  if in_stock g "silver" then ["silver"] else []

/-- The concatenated `wishlist` local of `_five_cost_buy` (`game.py` lines
629-635). -/
def five_wishlist_full (g : Game) (counts : String → Int) (coins : Int)
    (gardens_plan : Bool) : List String :=
  five_wishlist_curses g ++ five_wishlist_labs g counts ++
    five_wishlist_need_actions g counts coins ++
    five_wishlist_gardens_line g gardens_plan ++
    five_wishlist_defaults g ++ five_wishlist_fallback g

/-- `_five_cost_buy` (`game.py` lines 623-639): the concatenated wishlist's
first element wins (`for c in wishlist: return f"BUY {c}"`). -/
def five_cost_buy (g : Game) (coins : Int) (counts : String → Int) (gardens_plan : Bool) :
    Option Decision :=
  if coins < BUY_5_COST_COINS then none
  else
    match five_wishlist_full g counts coins gardens_plan with
    | [] => none
    | c :: _ => some (.BUY c)

/-- `_four_cost_buy` (`game.py` lines 642-658): uses the router's
`_terminal_capacity` for the village gate. -/
def four_cost_buy (g : Game) (coins : Int) (counts : String → Int) : Option Decision :=
  if coins < BUY_4_COST_COINS then none
  else
    match ["moneylender", "militia", "port", "poacher", "remodel",
        "remake"].find? (fun c => in_stock g c) with
    | some c => some (.BUY c)
    | none =>
      if terminal_capacity counts ≤ 0 ∧ in_stock g "village" then some (.BUY "village")
      else if in_stock g "smithy" then some (.BUY "smithy")
      else if in_stock g "gardens" then some (.BUY "gardens")
      else if in_stock g "silver" then some (.BUY "silver")
      else none

/-- `_six_cost_buy` (`game.py` lines 672-683): hireling before turn
`MIN_GREEN_TURN + 4`, else distantshore when engine-ready or early. -/
def six_cost_buy (g : Game) (coins : Int) (counts : String → Int) (turn : Int) :
    Option Decision :=
  if coins < BUY_GOLD_COINS then none
  else if in_stock g "hireling" ∧ ¬(0 < counts "hireling") ∧ turn ≤ MIN_GREEN_TURN + 4 then
    some (.BUY "hireling")
  else if in_stock g "distantshore" ∧ (engine_ready counts ∨ turn ≤ MIN_GREEN_TURN) then
    some (.BUY "distantshore")
  else none

/-- `BuyCtx` (`game.py` lines 30-33). -/
structure BuyCtx where
  provinces_left : Int
  score_gap : Int
  turn : Int

def step_opening (g : Game) (coins : Int) (counts : String → Int) (turn : Int) :
    Option Decision :=
  opening_buys g coins counts turn

def step_province_if_ok (g : Game) (coins : Int) (counts : String → Int) (ctx : BuyCtx) :
    Option Decision :=
  if BUY_PROVINCE_COINS ≤ coins ∧ in_stock g "province" then
    if early_province_ok counts ctx.provinces_left ctx.turn ctx.score_gap then
      some (.BUY "province")
    else none
  else none

def step_gold_if_building (g : Game) (coins : Int) (counts : String → Int) (ctx : BuyCtx) :
    Option Decision :=
  if BUY_PROVINCE_COINS ≤ coins ∧ in_stock g "gold" then
    if !(early_province_ok counts ctx.provinces_left ctx.turn ctx.score_gap) then
      some (.BUY "gold")
    else none
  else none

def step_endgame (g : Game) (coins : Int) (ctx : BuyCtx) (my_score best_opp : Int) :
    Option Decision :=
  endgame_buy g coins ctx.provinces_left my_score best_opp ctx.turn

def step_midgame (g : Game) (coins : Int) (ctx : BuyCtx) (my_score best_opp : Int) :
    Option Decision :=
  midgame_buy g coins ctx.provinces_left my_score best_opp ctx.turn

def step_gardens_primary (g : Game) (coins : Int) (gardens_plan : Bool) : Option Decision :=
  if gardens_plan ∧ BUY_4_COST_COINS ≤ coins ∧ in_stock g "gardens" then some (.BUY "gardens")
  else none

def step_gardens_secondary (g : Game) (coins : Int) (counts : String → Int)
    (gardens_plan : Bool) : Option Decision :=
  if !gardens_plan then none else five_cost_buy g coins counts true

def step_economy (g : Game) (coins : Int) : Option Decision := economy_buy g coins

def step_five (g : Game) (coins : Int) (counts : String → Int) : Option Decision :=
  five_cost_buy g coins counts false

def step_four (g : Game) (coins : Int) (counts : String → Int) : Option Decision :=
  four_cost_buy g coins counts

def step_three (g : Game) (coins : Int) : Option Decision := three_cost_buy g coins

/-- The `steps` tuple built inside `choose_buy_action` (`game.py` lines
828-841), with the locals (`counts`, `provinces_left`, scores, `gardens_plan`,
`turn`, `ctx`) computed exactly as there. -/
def buySteps (g : Game) (coins : Int) (me_idx : Nat) (s : TState) : List (Option Decision) :=
  let counts := s.counts
  let provinces_left : Int := (g.stock "province" : Int)
  let ms := score_status g me_idx
  let gardens_plan := s.gardens_plan.getD false
  let turn := s.turn
  let ctx : BuyCtx := ⟨provinces_left, ms.1 - ms.2, turn⟩
  [step_opening g coins counts turn,
   step_province_if_ok g coins counts ctx,
   step_gold_if_building g coins counts ctx,
   step_endgame g coins ctx ms.1 ms.2,
   step_midgame g coins ctx ms.1 ms.2,
   step_gardens_primary g coins gardens_plan,
   step_gardens_secondary g coins counts gardens_plan,
   six_cost_buy g coins counts turn,
   step_economy g coins,
   step_five g coins counts,
   step_four g coins counts,
   step_three g coins]

/-- `choose_buy_action` (`game.py` lines 816-847): the loop
`for s in steps: d = s(); if d: return d` followed by `return "END_TURN"`,
i.e. the first non-null step result, else `END_TURN`. -/
def choose_buy_action (g : Game) (coins : Int) (me_idx : Nat) (s : TState) : Decision :=
  ((buySteps g coins me_idx s).findSome? id).getD .END_TURN

/-! ### Action pickers (`game.py` lines 259-359) -/

/-- `_act_trashing` (`game.py` lines 259-275). -/
def act_trashing (q : List (String × Nat)) (actions_left : Int) (s : TState) :
    Option (Decision × TState) :=
  if 0 < qget q "chapel" ∧
      (0 < qget q "curse" ∨ 0 < qget q "estate" ∨ MIN_COPPER_TRASH ≤ qget q "copper") then
    some (.ACTION "chapel", { s with actions_left := actions_left - 1 + plusActionsOf "chapel" })
  else if 0 < qget q "moneylender" ∧ 0 < qget q "copper" then
    some (.ACTION "moneylender",
      { s with actions_left := actions_left - 1,
               action_coins := s.action_coins + coinBonus "moneylender" })
  else if 0 < qget q "remodel" ∨ 0 < qget q "remake" then
    some (.ACTION (if 0 < qget q "remake" then "remake" else "remodel"),
      { s with actions_left := actions_left - 1 })
  else none

/-- The fixed order of `_act_nonterminal`. -/
def nonterminalOrder : List String :=
  ["village", "market", "laboratory", "festival", "distantshore", "port", "cellar",
   "farmingvillage", "magpie", "poacher"]

/-- `_act_nonterminal` (`game.py` lines 278-299). -/
def act_nonterminal (q : List (String × Nat)) (actions_left : Int) (s : TState) :
    Option (Decision × TState) :=
  match nonterminalOrder.find? (fun c => decide (0 < qget q c)) with
  | some c =>
    some (.ACTION c,
      { s with actions_left := actions_left - 1 + plusActionsOf c,
               action_coins := s.action_coins + coinBonus c,
               extra_buys := s.extra_buys + buyBonusOf c })
  | none => none

/-- `_act_attacks` (`game.py` lines 302-307). -/
def act_attacks (q : List (String × Nat)) (actions_left : Int) (s : TState) :
    Option (Decision × TState) :=
  match ["witch", "militia", "bandit", "bureaucrat"].find? (fun c => decide (0 < qget q c)) with
  | some c => some (.ACTION c, { s with actions_left := actions_left - 1 })
  | none => none

/-- `_act_terminal_draw` (`game.py` lines 310-323). -/
def act_terminal_draw (q : List (String × Nat)) (actions_left : Int) (s : TState) :
    Option (Decision × TState) :=
  match ["councilroom", "smithy", "library", "adventurer"].find?
      (fun c => decide (0 < qget q c)) with
  | some c =>
    some (.ACTION c,
      { s with actions_left := actions_left - 1,
               action_coins := s.action_coins + coinBonus c,
               extra_buys := s.extra_buys + buyBonusOf c })
  | none => none

/-- `_act_economy` (`game.py` lines 326-331). -/
def act_economy (q : List (String × Nat)) (actions_left : Int) (s : TState) :
    Option (Decision × TState) :=
  match ["mine", "feast", "workshop"].find? (fun c => decide (0 < qget q c)) with
  | some c => some (.ACTION c, { s with actions_left := actions_left - 1 })
  | none => none

/-- The `for picker in (_act_trashing, _act_nonterminal, _act_attacks,
_act_terminal_draw, _act_economy)` loop of `choose_action`: the first
non-null picker wins; when all decline, the state is untouched. -/
def runPickers (q : List (String × Nat)) (actions_left : Int) (s : TState) :
    Option Decision × TState :=
  match act_trashing q actions_left s with
  | some (d, s1) => (some d, s1)
  | none =>
    match act_nonterminal q actions_left s with
    | some (d, s1) => (some d, s1)
    | none =>
      match act_attacks q actions_left s with
      | some (d, s1) => (some d, s1)
      | none =>
        match act_terminal_draw q actions_left s with
        | some (d, s1) => (some d, s1)
        | none =>
          match act_economy q actions_left s with
          | some (d, s1) => (some d, s1)
          | none => (none, s)

/-- `choose_action` (`game.py` lines 335-359): out of actions or no
actionable card means `None` with the state untouched; otherwise the five
sub-pickers are tried in order (each mutates the state only on the branch
where it returns a decision). -/
def choose_action (g : Game) (me_idx : Nat) (s : TState) : Option Decision × TState :=
  let me := (g.players.get? me_idx).getD ⟨none, none, none⟩
  let q := me.hand.getD []
  let actions_left := s.actions_left
  if actions_left ≤ 0 then (none, s)
  else if (q.filter (fun p =>
      inCosts p.1 &&
        !(["copper", "silver", "gold", "estate", "duchy", "province"].contains p.1))).isEmpty then
    (none, s)
  else runPickers q actions_left s

/-- `/start_turn` (`game.py` lines 447-463): resets the per-turn fields and
increments `turn`; `counts` and `gardens_plan` are untouched. -/
def start_turn (s : TState) : TState :=
  { s with bought := false, buys_left := 1, coins_left := 0, initialized_resources := false,
           phase := .ACTION, actions_left := 1, action_coins := 0, extra_buys := 0,
           turn := s.turn + 1 }

/-- The once-per-match `gardens_plan` initialization at the top of `/play`:
`if "gardens_plan" not in state: state["gardens_plan"] = _should_pivot_to_gardens(...)`. -/
def gardensInit (g : Game) (me_idx : Nat) (s0 : TState) : TState :=
  if s0.gardens_plan.isNone then
    { s0 with gardens_plan := some (should_pivot_to_gardens g me_idx) }
  else s0

/-- The BUY-phase tail of `/play` (`game.py` lines 887-935), reached when the
ACTION phase produced nothing: the phase flips to BUY, `coins_left` (hand
treasures + `action_coins`) and the total `buys_left` (base + `extra_buys`)
are computed, the `buys_left <= 0 or not affordable_any` guard may end the
turn, and a `BUY <card>` decision updates `bought`, `coins_left` (clamped at
0), the base `buys_left` (clamped at 0) and the cumulative `counts`.  The
card token of every emitted decision is a lowercase single word, so the
source's `decision.split(" ", 1)` + `strip().lower()` reparse is the
identity on it and the `except` branch is unreachable. -/
def playBuyPhase (g : Game) (me_idx : Nat) (s1 : TState) : Except Unit (Decision × TState) :=
  let s2 : TState := { s1 with phase := Phase.BUY }
  let coins_left : Int := compute_treasure_coins g me_idx + s2.action_coins
  let buys_left : Int := s2.buys_left + s2.extra_buys
  let s3 : TState := { s2 with coins_left := coins_left }
  if buys_left ≤ 0 ∨
      ¬((0 < g.stock "province" ∧ BUY_PROVINCE_COINS ≤ coins_left) ∨
        (0 < g.stock "gold" ∧ BUY_GOLD_COINS ≤ coins_left) ∨
        BUY_SILVER_COINS ≤ coins_left) then
    .ok (.END_TURN, s3)
  else
    match choose_buy_action g coins_left me_idx s3 with
    | .BUY card =>
      .ok (.BUY card,
        { s3 with bought := true,
                  coins_left := max 0 (coins_left - (cost0 card : Int)),
                  buys_left := max 0 (s3.buys_left - 1),
                  counts := fun k => if k = card then s3.counts k + 1 else s3.counts k })
    | d => .ok (d, s3)

/-- `/play` (`game.py` lines 850-935).  With an empty players list the source
raises `IndexError` on `game.players[me_idx]` (in `choose_action` or the
coin computation) before producing any decision, modelled as `.error ()`
with the state unchanged (no mutation before any raise point touches
`counts`).  Otherwise `gardens_plan` is decided once, the ACTION phase may
emit an `ACTION` decision (staying in phase ACTION), and otherwise the BUY
phase tail runs. -/
def play (g : Game) (s0 : TState) : Except Unit (Decision × TState) :=
  if g.players.isEmpty then .error ()
  else
    let me_idx := find_me g
    let s := gardensInit g me_idx s0
    match (if s.phase = Phase.ACTION then choose_action g me_idx s else (none, s)) with
    | (some d, s1) => .ok (d, s1)
    | (none, s1) => playBuyPhase g me_idx s1

/-- The decision component of `/play` (what the route returns to the
server). -/
def play_decision (g : Game) (s : TState) : Except Unit Decision :=
  (play g s).map Prod.fst

end Router

/-! ## Scenario A (claim C8) -/

/-- The snapshot of spec Scenario A: our hand is `{chapel: 1, estate: 1,
village: 1}`. -/
def gScenarioA : Game :=
  { players := [{ name := none, score := some 0,
                  hand := some [("chapel", 1), ("estate", 1), ("village", 1)] }],
    stock := fun _ => 0 }

/-- The turn state of Scenario A: `actions_left = 1`, phase ACTION. -/
def sScenarioA : TState :=
  { bought := false, counts := fun _ => 0, buys_left := 1, coins_left := 0,
    initialized_resources := false, phase := .ACTION, actions_left := 1,
    action_coins := 0, extra_buys := 0, turn := 1, gardens_plan := some false }

/-! ## A concrete buy invocation (witness input for claims C1 and C10) -/

/-- A snapshot with one player (our team tag in the name), three golds in
hand, and provinces and gold in stock. -/
def gBuyEx : Game :=
  { players := [{ name := some "Equipe3MaGueule", score := some 3,
                  hand := some [("gold", 3)] }],
    stock := fun c => if c = "province" then 8 else if c = "gold" then 10 else 0 }

/-- A mid-match BUY-phase turn state: one buy left, turn 12, the gardens
pivot already decided (off). -/
def sBuyEx : TState :=
  { bought := false, counts := fun c => if c = "gold" then 2 else 0,
    buys_left := 1, coins_left := 0, initialized_resources := true,
    phase := Phase.BUY, actions_left := 0, action_coins := 0, extra_buys := 0,
    turn := 12, gardens_plan := some false }

/-- The post-state of `/play` on `gBuyEx`/`sBuyEx` (the invocation emits
`BUY province`). -/
def sBuyExPost : TState :=
  match Router.play gBuyEx sBuyEx with
  | .ok (_, t) => t
  | .error _ => sBuyEx

/-- C8: with hand `{chapel: 1, estate: 1, village: 1}` and `actions_left = 1`,
`choose_action` returns `ACTION chapel`: the trashing picker fires first
(junk — an estate — is in hand), beating the non-terminal engine picker that
would have played the village. -/
theorem choose_action_chapel_scenario :
    (Router.choose_action gScenarioA 0 sScenarioA).1 = some (Decision.ACTION "chapel") := by
  decide

/-! ## State-preservation lemmas for the orchestrator -/

theorem gardensInit_fields (g : Game) (i : Nat) (s : TState) :
    (Router.gardensInit g i s).counts = s.counts ∧
    (Router.gardensInit g i s).action_coins = s.action_coins ∧
    (Router.gardensInit g i s).buys_left = s.buys_left ∧
    (Router.gardensInit g i s).extra_buys = s.extra_buys ∧
    (Router.gardensInit g i s).actions_left = s.actions_left := by
  unfold Router.gardensInit
  split <;> exact ⟨rfl, rfl, rfl, rfl, rfl⟩

theorem act_trashing_counts {q : List (String × Nat)} {al : Int} {s : TState} {d : Decision}
    {s1 : TState} (h : Router.act_trashing q al s = some (d, s1)) : s1.counts = s.counts := by
  unfold Router.act_trashing at h
  split_ifs at h <;>
    (simp only [Option.some.injEq, Prod.mk.injEq] at h; obtain ⟨-, h2⟩ := h; subst h2; rfl)

theorem act_nonterminal_counts {q : List (String × Nat)} {al : Int} {s : TState} {d : Decision}
    {s1 : TState} (h : Router.act_nonterminal q al s = some (d, s1)) : s1.counts = s.counts := by
  unfold Router.act_nonterminal at h
  cases hf : Router.nonterminalOrder.find? (fun c => decide (0 < qget q c)) with
  | none => rw [hf] at h; simp at h
  | some c =>
    rw [hf] at h
    simp only [Option.some.injEq, Prod.mk.injEq] at h
    obtain ⟨-, h2⟩ := h; subst h2; rfl

theorem act_attacks_counts {q : List (String × Nat)} {al : Int} {s : TState} {d : Decision}
    {s1 : TState} (h : Router.act_attacks q al s = some (d, s1)) : s1.counts = s.counts := by
  unfold Router.act_attacks at h
  cases hf : ["witch", "militia", "bandit", "bureaucrat"].find? (fun c => decide (0 < qget q c)) with
  | none => rw [hf] at h; simp at h
  | some c =>
    rw [hf] at h
    simp only [Option.some.injEq, Prod.mk.injEq] at h
    obtain ⟨-, h2⟩ := h; subst h2; rfl

theorem act_terminal_draw_counts {q : List (String × Nat)} {al : Int} {s : TState} {d : Decision}
    {s1 : TState} (h : Router.act_terminal_draw q al s = some (d, s1)) : s1.counts = s.counts := by
  unfold Router.act_terminal_draw at h
  cases hf : ["councilroom", "smithy", "library", "adventurer"].find?
      (fun c => decide (0 < qget q c)) with
  | none => rw [hf] at h; simp at h
  | some c =>
    rw [hf] at h
    simp only [Option.some.injEq, Prod.mk.injEq] at h
    obtain ⟨-, h2⟩ := h; subst h2; rfl

theorem act_economy_counts {q : List (String × Nat)} {al : Int} {s : TState} {d : Decision}
    {s1 : TState} (h : Router.act_economy q al s = some (d, s1)) : s1.counts = s.counts := by
  unfold Router.act_economy at h
  cases hf : ["mine", "feast", "workshop"].find? (fun c => decide (0 < qget q c)) with
  | none => rw [hf] at h; simp at h
  | some c =>
    rw [hf] at h
    simp only [Option.some.injEq, Prod.mk.injEq] at h
    obtain ⟨-, h2⟩ := h; subst h2; rfl

theorem runPickers_counts (q : List (String × Nat)) (al : Int) (s : TState) :
    (Router.runPickers q al s).2.counts = s.counts := by
  unfold Router.runPickers
  cases hT : Router.act_trashing q al s with
  | some p => obtain ⟨d, s1⟩ := p; exact act_trashing_counts hT
  | none =>
    cases hN : Router.act_nonterminal q al s with
    | some p => obtain ⟨d, s1⟩ := p; exact act_nonterminal_counts hN
    | none =>
      cases hA : Router.act_attacks q al s with
      | some p => obtain ⟨d, s1⟩ := p; exact act_attacks_counts hA
      | none =>
        cases hD : Router.act_terminal_draw q al s with
        | some p => obtain ⟨d, s1⟩ := p; exact act_terminal_draw_counts hD
        | none =>
          cases hE : Router.act_economy q al s with
          | some p => obtain ⟨d, s1⟩ := p; exact act_economy_counts hE
          | none => rfl

theorem choose_action_counts (g : Game) (i : Nat) (s : TState) :
    (Router.choose_action g i s).2.counts = s.counts := by
  unfold Router.choose_action
  dsimp only
  split_ifs <;> first | rfl | exact runPickers_counts _ _ _

theorem act_trashing_decision {q : List (String × Nat)} {al : Int} {s : TState} {d : Decision}
    {s1 : TState} (h : Router.act_trashing q al s = some (d, s1)) : ∃ c, d = .ACTION c := by
  unfold Router.act_trashing at h
  split_ifs at h <;>
    (simp only [Option.some.injEq, Prod.mk.injEq] at h; exact ⟨_, h.1.symm⟩)

theorem act_nonterminal_decision {q : List (String × Nat)} {al : Int} {s : TState} {d : Decision}
    {s1 : TState} (h : Router.act_nonterminal q al s = some (d, s1)) : ∃ c, d = .ACTION c := by
  unfold Router.act_nonterminal at h
  cases hf : Router.nonterminalOrder.find? (fun c => decide (0 < qget q c)) with
  | none => rw [hf] at h; simp at h
  | some c =>
    rw [hf] at h
    simp only [Option.some.injEq, Prod.mk.injEq] at h
    exact ⟨c, h.1.symm⟩

theorem act_attacks_decision {q : List (String × Nat)} {al : Int} {s : TState} {d : Decision}
    {s1 : TState} (h : Router.act_attacks q al s = some (d, s1)) : ∃ c, d = .ACTION c := by
  unfold Router.act_attacks at h
  cases hf : ["witch", "militia", "bandit", "bureaucrat"].find? (fun c => decide (0 < qget q c)) with
  | none => rw [hf] at h; simp at h
  | some c =>
    rw [hf] at h
    simp only [Option.some.injEq, Prod.mk.injEq] at h
    exact ⟨c, h.1.symm⟩

theorem act_terminal_draw_decision {q : List (String × Nat)} {al : Int} {s : TState}
    {d : Decision} {s1 : TState} (h : Router.act_terminal_draw q al s = some (d, s1)) :
    ∃ c, d = .ACTION c := by
  unfold Router.act_terminal_draw at h
  cases hf : ["councilroom", "smithy", "library", "adventurer"].find?
      (fun c => decide (0 < qget q c)) with
  | none => rw [hf] at h; simp at h
  | some c =>
    rw [hf] at h
    simp only [Option.some.injEq, Prod.mk.injEq] at h
    exact ⟨c, h.1.symm⟩

theorem act_economy_decision {q : List (String × Nat)} {al : Int} {s : TState} {d : Decision}
    {s1 : TState} (h : Router.act_economy q al s = some (d, s1)) : ∃ c, d = .ACTION c := by
  unfold Router.act_economy at h
  cases hf : ["mine", "feast", "workshop"].find? (fun c => decide (0 < qget q c)) with
  | none => rw [hf] at h; simp at h
  | some c =>
    rw [hf] at h
    simp only [Option.some.injEq, Prod.mk.injEq] at h
    exact ⟨c, h.1.symm⟩

/-- Every picker proposes an `ACTION` decision only. -/
theorem runPickers_decision_action (q : List (String × Nat)) (al : Int) (s : TState)
    {d : Decision} {s1 : TState} (h : Router.runPickers q al s = (some d, s1)) :
    ∃ c, d = .ACTION c := by
  unfold Router.runPickers at h
  cases hT : Router.act_trashing q al s with
  | some p =>
    obtain ⟨d0, s0⟩ := p
    rw [hT] at h
    simp only [Prod.mk.injEq, Option.some.injEq] at h
    obtain ⟨c, hc⟩ := act_trashing_decision hT
    exact ⟨c, by rw [← h.1]; exact hc⟩
  | none =>
    rw [hT] at h
    cases hN : Router.act_nonterminal q al s with
    | some p =>
      obtain ⟨d0, s0⟩ := p
      rw [hN] at h
      simp only [Prod.mk.injEq, Option.some.injEq] at h
      obtain ⟨c, hc⟩ := act_nonterminal_decision hN
      exact ⟨c, by rw [← h.1]; exact hc⟩
    | none =>
      rw [hN] at h
      cases hA : Router.act_attacks q al s with
      | some p =>
        obtain ⟨d0, s0⟩ := p
        rw [hA] at h
        simp only [Prod.mk.injEq, Option.some.injEq] at h
        obtain ⟨c, hc⟩ := act_attacks_decision hA
        exact ⟨c, by rw [← h.1]; exact hc⟩
      | none =>
        rw [hA] at h
        cases hD : Router.act_terminal_draw q al s with
        | some p =>
          obtain ⟨d0, s0⟩ := p
          rw [hD] at h
          simp only [Prod.mk.injEq, Option.some.injEq] at h
          obtain ⟨c, hc⟩ := act_terminal_draw_decision hD
          exact ⟨c, by rw [← h.1]; exact hc⟩
        | none =>
          rw [hD] at h
          cases hE : Router.act_economy q al s with
          | some p =>
            obtain ⟨d0, s0⟩ := p
            rw [hE] at h
            simp only [Prod.mk.injEq, Option.some.injEq] at h
            obtain ⟨c, hc⟩ := act_economy_decision hE
            exact ⟨c, by rw [← h.1]; exact hc⟩
          | none => rw [hE] at h; simp at h


/-- When every picker declines, the state comes back untouched. -/
theorem runPickers_none_state (q : List (String × Nat)) (al : Int) (s : TState)
    {s1 : TState} (h : Router.runPickers q al s = (none, s1)) : s1 = s := by
  unfold Router.runPickers at h
  cases hT : Router.act_trashing q al s with
  | some p => obtain ⟨d, s0⟩ := p; rw [hT] at h; simp at h
  | none =>
    rw [hT] at h
    cases hN : Router.act_nonterminal q al s with
    | some p => obtain ⟨d, s0⟩ := p; rw [hN] at h; simp at h
    | none =>
      rw [hN] at h
      cases hA : Router.act_attacks q al s with
      | some p => obtain ⟨d, s0⟩ := p; rw [hA] at h; simp at h
      | none =>
        rw [hA] at h
        cases hD : Router.act_terminal_draw q al s with
        | some p => obtain ⟨d, s0⟩ := p; rw [hD] at h; simp at h
        | none =>
          rw [hD] at h
          cases hE : Router.act_economy q al s with
          | some p => obtain ⟨d, s0⟩ := p; rw [hE] at h; simp at h
          | none =>
            rw [hE] at h
            simp only [Prod.mk.injEq] at h
            exact h.2.symm

/-- `choose_action` with a `none` decision leaves the state untouched. -/
theorem choose_action_none_state (g : Game) (i : Nat) (s : TState)
    {s1 : TState} (h : Router.choose_action g i s = (none, s1)) : s1 = s := by
  unfold Router.choose_action at h
  dsimp only at h
  split_ifs at h
  · exact (Prod.mk.injEq .. ▸ h).2.symm
  · exact (Prod.mk.injEq .. ▸ h).2.symm
  · exact runPickers_none_state _ _ _ h

/-- `choose_action` can only propose an `ACTION` decision. -/
theorem choose_action_decision_action (g : Game) (i : Nat) (s : TState) {d : Decision}
    {s1 : TState} (h : Router.choose_action g i s = (some d, s1)) : ∃ c, d = .ACTION c := by
  unfold Router.choose_action at h
  dsimp only at h
  split_ifs at h
  · simp at h
  · simp at h
  · exact runPickers_decision_action _ _ _ h

/-- Inversion of the BUY phase tail on a `BUY` decision: the pipeline chose
the card at the computed coin pool, the buy guard had passed, and the stored
state was updated with the two clamps and the counter bump. -/
theorem playBuyPhase_buy_inversion {g : Game} {i : Nat} {s1 : TState} {card : String}
    {s' : TState} (h : Router.playBuyPhase g i s1 = .ok (.BUY card, s')) :
    Router.choose_buy_action g (Router.compute_treasure_coins g i + s1.action_coins) i
        { s1 with phase := Phase.BUY,
                  coins_left := Router.compute_treasure_coins g i + s1.action_coins }
      = .BUY card ∧
    0 < s1.buys_left + s1.extra_buys ∧
    s'.counts = (fun k => if k = card then s1.counts k + 1 else s1.counts k) ∧
    s'.coins_left =
      max 0 (Router.compute_treasure_coins g i + s1.action_coins - (cost0 card : Int)) ∧
    s'.buys_left = max 0 (s1.buys_left - 1) := by
  unfold Router.playBuyPhase at h
  dsimp only at h
  split_ifs at h with hguard
  · simp at h
  · push_neg at hguard
    split at h
    case _ c0 heq =>
      simp only [Except.ok.injEq, Prod.mk.injEq, Decision.BUY.injEq] at h
      obtain ⟨hc, hs⟩ := h
      subst hc
      refine ⟨heq, hguard.1, ?_, ?_, ?_⟩ <;> (rw [← hs])
    case _ =>
      simp only [Except.ok.injEq, Prod.mk.injEq] at h
      rename_i x hx
      exact absurd h.1 (fun hh => hx card hh)

/-- Counter shape of the BUY phase tail: a `BUY` bumps exactly the bought
card's counter; any other decision leaves `counts` untouched. -/
theorem playBuyPhase_counts_shape {g : Game} {i : Nat} {s1 : TState} {d : Decision}
    {s' : TState} (h : Router.playBuyPhase g i s1 = .ok (d, s')) :
    (∃ card, d = .BUY card ∧
      s'.counts = fun k => if k = card then s1.counts k + 1 else s1.counts k) ∨
    ((∀ b, d ≠ .BUY b) ∧ s'.counts = s1.counts) := by
  unfold Router.playBuyPhase at h
  dsimp only at h
  split_ifs at h with hguard
  · simp only [Except.ok.injEq, Prod.mk.injEq] at h
    refine Or.inr ⟨?_, ?_⟩
    · rw [← h.1]; intro b hb; cases hb
    · rw [← h.2]
  · split at h
    case _ c0 heq =>
      simp only [Except.ok.injEq, Prod.mk.injEq] at h
      exact Or.inl ⟨c0, h.1.symm, by rw [← h.2]⟩
    case _ =>
      simp only [Except.ok.injEq, Prod.mk.injEq] at h
      rename_i x hx
      refine Or.inr ⟨?_, ?_⟩
      · rw [← h.1]; intro b hb; exact hx b hb
      · rw [← h.2]

/-- Inversion of `/play` on a `BUY` decision: the decision comes from the BUY
phase tail, run on the gardens-initialized state. -/
theorem play_buy_inversion {g : Game} {s : TState} {card : String} {s' : TState}
    (h : Router.play g s = .ok (.BUY card, s')) :
    Router.playBuyPhase g (Router.find_me g) (Router.gardensInit g (Router.find_me g) s)
      = .ok (.BUY card, s') := by
  unfold Router.play at h
  split_ifs at h with he
  dsimp only at h
  by_cases hph : (Router.gardensInit g (Router.find_me g) s).phase = Phase.ACTION
  · rw [if_pos hph] at h
    rcases hm : Router.choose_action g (Router.find_me g)
        (Router.gardensInit g (Router.find_me g) s) with ⟨od, s1⟩
    rw [hm] at h
    cases od with
    | some d0 =>
      dsimp only at h
      simp only [Except.ok.injEq, Prod.mk.injEq] at h
      obtain ⟨c, hc⟩ := choose_action_decision_action _ _ _ hm
      exact absurd (hc.symm.trans h.1) (by simp)
    | none =>
      dsimp only at h
      have hs1 := choose_action_none_state _ _ _ hm
      rw [hs1] at h
      exact h
  · rw [if_neg hph] at h
    dsimp only at h
    exact h

/-- Shape of `/play`'s effect on `counts` for every successful invocation. -/
theorem play_counts_shape {g : Game} {s : TState} {d : Decision} {s' : TState}
    (h : Router.play g s = .ok (d, s')) :
    (∃ card, d = .BUY card ∧
      s'.counts = fun k => if k = card then s.counts k + 1 else s.counts k) ∨
    ((∀ b, d ≠ .BUY b) ∧ s'.counts = s.counts) := by
  have hgc : (Router.gardensInit g (Router.find_me g) s).counts = s.counts :=
    (gardensInit_fields g (Router.find_me g) s).1
  unfold Router.play at h
  split_ifs at h with he
  dsimp only at h
  by_cases hph : (Router.gardensInit g (Router.find_me g) s).phase = Phase.ACTION
  · rw [if_pos hph] at h
    rcases hm : Router.choose_action g (Router.find_me g)
        (Router.gardensInit g (Router.find_me g) s) with ⟨od, s1⟩
    rw [hm] at h
    cases od with
    | some d0 =>
      dsimp only at h
      simp only [Except.ok.injEq, Prod.mk.injEq] at h
      obtain ⟨c, hc⟩ := choose_action_decision_action _ _ _ hm
      refine Or.inr ⟨?_, ?_⟩
      · rw [← h.1, hc]; intro b hb; cases hb
      · have h2 := choose_action_counts g (Router.find_me g)
          (Router.gardensInit g (Router.find_me g) s)
        rw [hm] at h2
        rw [← h.2]
        exact h2.trans hgc
    | none =>
      dsimp only at h
      have hs1 := choose_action_none_state _ _ _ hm
      rw [hs1] at h
      rcases playBuyPhase_counts_shape h with ⟨card, hd, hcts⟩ | ⟨hd, hcts⟩
      · exact Or.inl ⟨card, hd, by rw [hcts, hgc]⟩
      · exact Or.inr ⟨hd, by rw [hcts, hgc]⟩
  · rw [if_neg hph] at h
    dsimp only at h
    rcases playBuyPhase_counts_shape h with ⟨card, hd, hcts⟩ | ⟨hd, hcts⟩
    · exact Or.inl ⟨card, hd, by rw [hcts, hgc]⟩
    · exact Or.inr ⟨hd, by rw [hcts, hgc]⟩

/-! ## The operation sequence of one match (claim C9) -/

/-- One external stimulus that touches the per-match state within a match:
a `/start_turn` signal or a `/play` invocation with a snapshot. -/
inductive Op where
  | startTurn : Op
  | playReq (g : Game) : Op

/-- State evolution under one stimulus.  A `/play` that raises leaves the
stored dict as mutated so far; no raise point touches `counts`, so the
error case keeps the entry state. -/
def applyOp (s : TState) : Op → TState
  | .startTurn => Router.start_turn s
  | .playReq g =>
    match Router.play g s with
    | .ok (_, s1) => s1
    | .error _ => s

/-- A whole per-match interaction history. -/
def applyOps (s : TState) (ops : List Op) : TState := ops.foldl applyOp s

theorem applyOp_counts_mono (s : TState) (op : Op) (c : String) :
    s.counts c ≤ (applyOp s op).counts c := by
  cases op with
  | startTurn => exact le_refl (s.counts c)
  | playReq g =>
    simp only [applyOp]
    cases hp : Router.play g s with
    | error e => exact le_refl (s.counts c)
    | ok r =>
      obtain ⟨d, s1⟩ := r
      rcases play_counts_shape hp with ⟨card, -, hcts⟩ | ⟨-, hcts⟩
      · show s.counts c ≤ s1.counts c
        rw [hcts]
        dsimp only
        split
        · omega
        · exact le_refl _
      · show s.counts c ≤ s1.counts c
        rw [hcts]

theorem applyOps_counts_mono (ops : List Op) (s : TState) (c : String) :
    s.counts c ≤ (applyOps s ops).counts c := by
  induction ops generalizing s with
  | nil => exact le_refl _
  | cons op ops ih =>
    exact le_trans (applyOp_counts_mono s op c) (ih (applyOp s op))

/-- C9: across any sequence of per-match operations (turn starts and play
invocations), every entry of the cumulative purchase counter `counts` is
non-decreasing; the per-turn reset of `/start_turn` does not touch `counts`;
a successful `/play` increments exactly the bought card's entry when it
emits `BUY <card>` and leaves every entry unchanged otherwise. -/
theorem counts_monotone_across_match :
    (∀ (ops : List Op) (s : TState) (c : String), s.counts c ≤ (applyOps s ops).counts c) ∧
    (∀ (s : TState) (c : String), (Router.start_turn s).counts c = s.counts c) ∧
    (∀ (g : Game) (s : TState) (card : String) (s' : TState),
      Router.play g s = .ok (.BUY card, s') →
        s'.counts card = s.counts card + 1 ∧ ∀ c, c ≠ card → s'.counts c = s.counts c) ∧
    (∀ (g : Game) (s : TState) (d : Decision) (s' : TState),
      Router.play g s = .ok (d, s') → (∀ b, d ≠ .BUY b) → ∀ c, s'.counts c = s.counts c) := by
  refine ⟨applyOps_counts_mono, fun s c => rfl, ?_, ?_⟩
  · intro g s card s' h
    rcases play_counts_shape h with ⟨card0, hd, hcts⟩ | ⟨hd, hcts⟩
    · have hcc : card0 = card := by
        have := hd
        simp only [Decision.BUY.injEq] at this
        exact this.symm
      subst hcc
      constructor
      · rw [hcts]; simp
      · intro c hc
        rw [hcts]
        simp [hc]
    · exact absurd rfl (hd card)
  · intro g s d s' h hd c
    rcases play_counts_shape h with ⟨card0, hd0, hcts⟩ | ⟨-, hcts⟩
    · exact absurd hd0 (hd card0)
    · rw [hcts]

/-! ## Non-negative resources after a buy (claim C10) -/

theorem playBuyPhase_buy_nonneg {g : Game} {i : Nat} {s1 : TState} {card : String}
    {s' : TState} (h : Router.playBuyPhase g i s1 = .ok (.BUY card, s')) :
    0 ≤ s'.coins_left ∧ 0 ≤ s'.buys_left := by
  obtain ⟨-, -, -, hc, hb⟩ := playBuyPhase_buy_inversion h
  constructor
  · rw [hc]; exact le_max_left _ _
  · rw [hb]; exact le_max_left _ _

/-- C10: after every `/play` invocation that emits `BUY <card>`, the stored
`coins_left` and `buys_left` are non-negative: both post-buy updates clamp
at zero (`max(0, ...)`), whatever the card's cost (`COSTS.get(card, 0)`
defaults to 0 for a card outside the table) and whatever the coin pool was. -/
theorem post_buy_resources_nonneg (g : Game) (s : TState) (card : String) (s' : TState)
    (h : Router.play g s = .ok (.BUY card, s')) :
    0 ≤ s'.coins_left ∧ 0 ≤ s'.buys_left :=
  playBuyPhase_buy_nonneg (play_buy_inversion h)

/-! ## Buy legality (claim C1) -/

theorem in_stock_pos {g : Game} {c : String} (h : in_stock g c = true) : 0 < g.stock c :=
  of_decide_eq_true h

theorem find?_in_stock {g : Game} {l : List String} {c : String}
    (h : l.find? (fun c => in_stock g c) = some c) : c ∈ l ∧ 0 < g.stock c :=
  ⟨List.mem_of_find?_eq_some h, in_stock_pos (List.find?_some h)⟩

theorem mem_cond_singleton {P : Prop} [Decidable P] {c x : String}
    (hx : x ∈ (if P then [c] else [])) : x = c ∧ P := by
  split_ifs at hx with hc
  · simp only [List.mem_singleton] at hx; exact ⟨hx, hc⟩
  · simp at hx

theorem mem_filter_stock {g : Game} {l : List String} {x : String}
    (hx : x ∈ l.filter (fun c => in_stock g c)) : x ∈ l ∧ 0 < g.stock x := by
  rw [List.mem_filter] at hx
  exact ⟨hx.1, in_stock_pos hx.2⟩

/-- A step result is legal when any `BUY <c>` it holds is affordable and in
stock. -/
def StepLegal (g : Game) (coins : Int) (o : Option Decision) : Prop :=
  ∀ c, o = some (.BUY c) → (cost0 c : Int) ≤ coins ∧ 0 < g.stock c

theorem five_wishlist_curses_mem {g : Game} {x : String}
    (hx : x ∈ Router.five_wishlist_curses g) : x = "witch" ∧ 0 < g.stock x := by
  unfold Router.five_wishlist_curses at hx
  split_ifs at hx with hc
  · simp only [List.mem_singleton] at hx; subst hx; exact ⟨rfl, in_stock_pos hc.2⟩
  · simp at hx

theorem five_wishlist_labs_mem {g : Game} {counts : String → Int} {x : String}
    (hx : x ∈ Router.five_wishlist_labs g counts) : x = "laboratory" ∧ 0 < g.stock x := by
  unfold Router.five_wishlist_labs at hx
  split_ifs at hx with hc
  · simp only [List.mem_singleton] at hx; subst hx; exact ⟨rfl, in_stock_pos hc.1⟩
  · simp at hx

theorem five_wishlist_need_actions_mem {g : Game} {counts : String → Int} {coins : Int}
    {x : String} (hx : x ∈ Router.five_wishlist_need_actions g counts coins) :
    x ∈ ["market", "festival", "village"] ∧ 0 < g.stock x := by
  unfold Router.five_wishlist_need_actions at hx
  by_cases hna : Router.five_need_actions counts = true
  · rw [if_pos hna] at hx
    simp only [List.mem_append] at hx
    rcases hx with (hx | hx) | hx
    · obtain ⟨rfl, hc⟩ := mem_cond_singleton hx
      exact ⟨by simp, in_stock_pos hc⟩
    · obtain ⟨rfl, hc⟩ := mem_cond_singleton hx
      exact ⟨by simp, in_stock_pos hc⟩
    · obtain ⟨rfl, hc⟩ := mem_cond_singleton hx
      exact ⟨by simp, in_stock_pos hc.1⟩
  · rw [if_neg hna] at hx
    simp at hx

theorem five_wishlist_gardens_line_mem {g : Game} {gp : Bool} {x : String}
    (hx : x ∈ Router.five_wishlist_gardens_line g gp) :
    x ∈ ["market", "festival", "laboratory"] ∧ 0 < g.stock x := by
  unfold Router.five_wishlist_gardens_line at hx
  split_ifs at hx
  · exact mem_filter_stock hx
  · simp at hx

theorem five_wishlist_defaults_mem {g : Game} {x : String}
    (hx : x ∈ Router.five_wishlist_defaults g) :
    x ∈ FIVE_COST_PREFER ∧ 0 < g.stock x := by
  unfold Router.five_wishlist_defaults at hx
  exact mem_filter_stock hx

theorem five_wishlist_fallback_mem {g : Game} {x : String}
    (hx : x ∈ Router.five_wishlist_fallback g) : x = "silver" ∧ 0 < g.stock x := by
  unfold Router.five_wishlist_fallback at hx
  split_ifs at hx with hc
  · simp only [List.mem_singleton] at hx; subst hx; exact ⟨rfl, in_stock_pos hc⟩
  · simp at hx

/-- Every wishlist entry of the router's 5-coin step costs at most 5 and is
in stock. -/
theorem five_wishlist_full_mem {g : Game} {counts : String → Int} {coins : Int} {gp : Bool}
    {x : String} (hx : x ∈ Router.five_wishlist_full g counts coins gp) :
    cost0 x ≤ 5 ∧ 0 < g.stock x := by
  unfold Router.five_wishlist_full at hx
  simp only [List.mem_append] at hx
  rcases hx with ((((hx | hx) | hx) | hx) | hx) | hx
  · obtain ⟨rfl, hs⟩ := five_wishlist_curses_mem hx
    exact ⟨by decide, hs⟩
  · obtain ⟨rfl, hs⟩ := five_wishlist_labs_mem hx
    exact ⟨by decide, hs⟩
  · obtain ⟨hmem, hs⟩ := five_wishlist_need_actions_mem hx
    exact ⟨(by decide : ∀ y ∈ ["market", "festival", "village"], cost0 y ≤ 5) x hmem, hs⟩
  · obtain ⟨hmem, hs⟩ := five_wishlist_gardens_line_mem hx
    exact ⟨(by decide : ∀ y ∈ ["market", "festival", "laboratory"], cost0 y ≤ 5) x hmem, hs⟩
  · obtain ⟨hmem, hs⟩ := five_wishlist_defaults_mem hx
    exact ⟨(by decide : ∀ y ∈ FIVE_COST_PREFER, cost0 y ≤ 5) x hmem, hs⟩
  · obtain ⟨rfl, hs⟩ := five_wishlist_fallback_mem hx
    exact ⟨by decide, hs⟩

theorem five_cost_buy_legal (g : Game) (coins : Int) (counts : String → Int) (gp : Bool) :
    StepLegal g coins (Router.five_cost_buy g coins counts gp) := by
  intro c h
  unfold Router.five_cost_buy at h
  split_ifs at h with hlt
  push_neg at hlt
  cases hw : Router.five_wishlist_full g counts coins gp with
  | nil => rw [hw] at h; simp at h
  | cons c0 rest =>
    rw [hw] at h
    simp only [Option.some.injEq, Decision.BUY.injEq] at h
    subst h
    have hc0 : c0 ∈ Router.five_wishlist_full g counts coins gp := by
      rw [hw]; exact List.mem_cons_self _ _
    obtain ⟨hcost, hstock⟩ := five_wishlist_full_mem hc0
    have h5 : (5 : Int) ≤ coins := hlt
    exact ⟨by omega, hstock⟩

theorem four_cost_buy_legal (g : Game) (coins : Int) (counts : String → Int) :
    StepLegal g coins (Router.four_cost_buy g coins counts) := by
  intro c h
  unfold Router.four_cost_buy at h
  by_cases hlt : coins < BUY_4_COST_COINS
  · rw [if_pos hlt] at h; simp at h
  · rw [if_neg hlt] at h
    push_neg at hlt
    have h4 : (4 : Int) ≤ coins := hlt
    cases hf : ["moneylender", "militia", "port", "poacher", "remodel",
        "remake"].find? (fun c => in_stock g c) with
    | some c0 =>
      rw [hf] at h
      simp only [Option.some.injEq, Decision.BUY.injEq] at h
      subst h
      obtain ⟨hmem, hstock⟩ := find?_in_stock hf
      have hcost := (by decide : ∀ y ∈ ["moneylender", "militia", "port", "poacher",
        "remodel", "remake"], cost0 y ≤ 4) _ hmem
      exact ⟨by omega, hstock⟩
    | none =>
      rw [hf] at h
      simp only at h
      split_ifs at h with h1 h2 h3 h4s <;>
        simp only [Option.some.injEq, Decision.BUY.injEq] at h
      · subst h
        have hv : cost0 "village" = 3 := by decide
        exact ⟨by omega, in_stock_pos h1.2⟩
      · subst h
        have hv : cost0 "smithy" = 4 := by decide
        exact ⟨by omega, in_stock_pos h2⟩
      · subst h
        have hv : cost0 "gardens" = 4 := by decide
        exact ⟨by omega, in_stock_pos h3⟩
      · subst h
        have hv : cost0 "silver" = 3 := by decide
        exact ⟨by omega, in_stock_pos h4s⟩

theorem three_cost_buy_legal (g : Game) (coins : Int) :
    StepLegal g coins (three_cost_buy g coins) := by
  intro c h
  unfold three_cost_buy at h
  by_cases h3 : COINS_EQ_3 ≤ coins
  · rw [if_pos h3] at h
    have h3' : (3 : Int) ≤ coins := h3
    cases hf : ["workshop", "village", "woodcutter"].find? (fun c => in_stock g c) with
    | some c0 =>
      rw [hf] at h
      simp only [Option.some.injEq, Decision.BUY.injEq] at h
      subst h
      obtain ⟨hmem, hstock⟩ := find?_in_stock hf
      have hcost := (by decide : ∀ y ∈ ["workshop", "village", "woodcutter"],
        cost0 y ≤ 3) _ hmem
      exact ⟨by omega, hstock⟩
    | none =>
      rw [hf] at h
      simp only at h
      split_ifs at h with h1 <;> simp only [Option.some.injEq, Decision.BUY.injEq] at h
      subst h
      have hv : cost0 "silver" = 3 := by decide
      exact ⟨by omega, in_stock_pos h1⟩
  · rw [if_neg h3] at h; simp at h

theorem six_cost_buy_legal (g : Game) (coins : Int) (counts : String → Int) (turn : Int) :
    StepLegal g coins (Router.six_cost_buy g coins counts turn) := by
  intro c h
  unfold Router.six_cost_buy at h
  split_ifs at h with hlt h1 h2 <;>
    simp only [Option.some.injEq, Decision.BUY.injEq] at h
  · subst h
    have h6 : (6 : Int) ≤ coins := by
      have := not_lt.mp hlt
      exact this
    have hv : cost0 "hireling" = 6 := by decide
    exact ⟨by omega, in_stock_pos h1.1⟩
  · subst h
    have h6 : (6 : Int) ≤ coins := not_lt.mp hlt
    have hv : cost0 "distantshore" = 6 := by decide
    exact ⟨by omega, in_stock_pos h2.1⟩

theorem economy_buy_legal (g : Game) (coins : Int) : StepLegal g coins (economy_buy g coins) := by
  intro c h
  unfold economy_buy at h
  split_ifs at h with hc <;> simp only [Option.some.injEq, Decision.BUY.injEq] at h
  subst h
  have h6 : (6 : Int) ≤ coins := hc.1
  have hv : cost0 "gold" = 6 := by decide
  exact ⟨by omega, hc.2⟩

theorem endgame_buy_legal (g : Game) (coins provinces_left my_score best_opp turn : Int) :
    StepLegal g coins (endgame_buy g coins provinces_left my_score best_opp turn) := by
  intro c h
  unfold endgame_buy at h
  split_ifs at h with h0 h1 h2 h3 h4 h5 h6 h7 <;>
    simp only [Option.some.injEq, Decision.BUY.injEq] at h <;> subst h
  · refine ⟨?_, h1.2⟩
    have h8 : (8 : Int) ≤ coins := h1.1
    have hv : cost0 "province" = 8 := by decide
    omega
  · refine ⟨?_, in_stock_pos h2.2⟩
    have h5c : (5 : Int) ≤ coins := h2.1
    have hv : cost0 "duchy" = 5 := by decide
    omega
  · refine ⟨?_, in_stock_pos h3.2⟩
    have h3c : (3 : Int) ≤ coins := h3.1
    have hv : cost0 "estate" = 2 := by decide
    omega
  · refine ⟨?_, h5.2⟩
    have h8 : (8 : Int) ≤ coins := h5.1
    have hv : cost0 "province" = 8 := by decide
    omega
  · refine ⟨?_, in_stock_pos h6.2⟩
    have h5c : (5 : Int) ≤ coins := h6.1
    have hv : cost0 "duchy" = 5 := by decide
    omega
  · refine ⟨?_, in_stock_pos h7.2⟩
    have h3c : (3 : Int) ≤ coins := h7.1
    have hv : cost0 "estate" = 2 := by decide
    omega

theorem midgame_buy_legal (g : Game) (coins provinces_left my_score best_opp turn : Int) :
    StepLegal g coins (midgame_buy g coins provinces_left my_score best_opp turn) := by
  intro c h
  unfold midgame_buy at h
  split_ifs at h with h0 h1 h2 h3 <;>
    simp only [Option.some.injEq, Decision.BUY.injEq] at h <;> subst h
  · refine ⟨?_, in_stock_pos h0.2.2⟩
    have h8 : (8 : Int) ≤ coins := h0.2.1
    have hv : cost0 "province" = 8 := by decide
    omega
  · refine ⟨?_, in_stock_pos h1.2.2⟩
    have h8 : (8 : Int) ≤ coins := h1.2.1
    have hv : cost0 "province" = 8 := by decide
    omega
  · refine ⟨?_, in_stock_pos h2.2.2.1⟩
    have h5c : (5 : Int) ≤ coins := h2.2.1
    have hv : cost0 "duchy" = 5 := by decide
    omega
  · refine ⟨?_, in_stock_pos h3.2.2⟩
    have h5c : (5 : Int) ≤ coins := h3.2.1
    have hv : cost0 "duchy" = 5 := by decide
    omega

theorem opening_buy_5plus_legal (g : Game) (coins : Int) (h5 : (5 : Int) ≤ coins) :
    StepLegal g coins (opening_buy_5plus g) := by
  intro c h
  unfold opening_buy_5plus at h
  split_ifs at h with hw
  · simp only [Option.some.injEq, Decision.BUY.injEq] at h
    subst h
    have hv : cost0 "witch" = 5 := by decide
    exact ⟨by omega, in_stock_pos hw.2⟩
  · cases hf : ["laboratory", "market", "festival", "councilroom"].find?
        (fun c => in_stock g c) with
    | some c0 =>
      rw [hf] at h
      simp only [Option.some.injEq, Decision.BUY.injEq] at h
      subst h
      obtain ⟨hmem, hstock⟩ := find?_in_stock hf
      have hcost := (by decide : ∀ y ∈ ["laboratory", "market", "festival", "councilroom"],
        cost0 y ≤ 5) _ hmem
      exact ⟨by omega, hstock⟩
    | none => rw [hf] at h; simp at h

theorem opening_buy_4_legal (g : Game) (coins : Int) (h4 : (4 : Int) ≤ coins) :
    StepLegal g coins (opening_buy_4 g) := by
  intro c h
  unfold opening_buy_4 at h
  cases hf : ["moneylender", "militia", "smithy", "remodel", "remake", "poacher",
      "port"].find? (fun c => in_stock g c) with
  | some c0 =>
    rw [hf] at h
    simp only [Option.some.injEq, Decision.BUY.injEq] at h
    subst h
    obtain ⟨hmem, hstock⟩ := find?_in_stock hf
    have hcost := (by decide : ∀ y ∈ ["moneylender", "militia", "smithy", "remodel",
      "remake", "poacher", "port"], cost0 y ≤ 4) _ hmem
    exact ⟨by omega, hstock⟩
  | none =>
    rw [hf] at h
    simp only at h
    split_ifs at h with h1 h2 <;> simp only [Option.some.injEq, Decision.BUY.injEq] at h
    · subst h
      have hv : cost0 "village" = 3 := by decide
      exact ⟨by omega, in_stock_pos h1⟩
    · subst h
      have hv : cost0 "silver" = 3 := by decide
      exact ⟨by omega, in_stock_pos h2⟩

theorem opening_buy_3_legal (g : Game) (coins : Int) (h3 : (3 : Int) ≤ coins) :
    StepLegal g coins (opening_buy_3 g) := by
  intro c h
  unfold opening_buy_3 at h
  cases hf : ["workshop", "village", "woodcutter"].find? (fun c => in_stock g c) with
  | some c0 =>
    rw [hf] at h
    simp only [Option.some.injEq, Decision.BUY.injEq] at h
    subst h
    obtain ⟨hmem, hstock⟩ := find?_in_stock hf
    have hcost := (by decide : ∀ y ∈ ["workshop", "village", "woodcutter"],
      cost0 y ≤ 3) _ hmem
    exact ⟨by omega, hstock⟩
  | none =>
    rw [hf] at h
    simp only at h
    split_ifs at h with h1 <;> simp only [Option.some.injEq, Decision.BUY.injEq] at h
    subst h
    have hv : cost0 "silver" = 3 := by decide
    exact ⟨by omega, in_stock_pos h1⟩

theorem opening_buy_2_legal (g : Game) (coins : Int) (counts : String → Int)
    (h2 : (2 : Int) ≤ coins) : StepLegal g coins (opening_buy_2 g counts) := by
  intro c h
  unfold opening_buy_2 at h
  split_ifs at h with hc1 hc2 hc3 <;>
    simp only [Option.some.injEq, Decision.BUY.injEq] at h <;> subst h
  · have hv : cost0 "chapel" = 2 := by decide
    exact ⟨by omega, in_stock_pos hc1.2⟩
  · have hv : cost0 "cellar" = 2 := by decide
    exact ⟨by omega, in_stock_pos hc2⟩
  · have hv : cost0 "estate" = 2 := by decide
    exact ⟨by omega, in_stock_pos hc3⟩

theorem orElseO_eq_some {a b : Option Decision} {x : Decision} (h : orElseO a b = some x) :
    a = some x ∨ (a = none ∧ b = some x) := by
  cases a with
  | some d => exact Or.inl h
  | none => exact Or.inr ⟨rfl, h⟩

theorem opening_buys_legal (g : Game) (coins : Int) (counts : String → Int) (turn : Int) :
    StepLegal g coins (opening_buys g coins counts turn) := by
  intro c h
  unfold opening_buys at h
  by_cases ht : OPENING_TURN_LIMIT < turn
  · rw [if_pos ht] at h; simp at h
  · rw [if_neg ht] at h
    rcases orElseO_eq_some h with h5 | ⟨-, h⟩
    · by_cases hc5 : COINS_EQ_5 ≤ coins
      · rw [if_pos hc5] at h5
        exact opening_buy_5plus_legal g coins hc5 c h5
      · rw [if_neg hc5] at h5; simp at h5
    · rcases orElseO_eq_some h with h4 | ⟨-, h⟩
      · by_cases hc4 : coins = COINS_EQ_4
        · rw [if_pos hc4] at h4
          exact opening_buy_4_legal g coins (le_of_eq hc4.symm) c h4
        · rw [if_neg hc4] at h4; simp at h4
      · rcases orElseO_eq_some h with h3 | ⟨-, h⟩
        · by_cases hc3 : coins = COINS_EQ_3
          · rw [if_pos hc3] at h3
            exact opening_buy_3_legal g coins (le_of_eq hc3.symm) c h3
          · rw [if_neg hc3] at h3; simp at h3
        · by_cases hc2 : coins = BUY_4_COST_COINS - 2
          · rw [if_pos hc2] at h
            exact opening_buy_2_legal g coins counts (le_of_eq hc2.symm) c h
          · rw [if_neg hc2] at h; simp at h

theorem step_opening_legal (g : Game) (coins : Int) (counts : String → Int) (turn : Int) :
    StepLegal g coins (Router.step_opening g coins counts turn) :=
  opening_buys_legal g coins counts turn

theorem step_province_if_ok_legal (g : Game) (coins : Int) (counts : String → Int)
    (ctx : Router.BuyCtx) : StepLegal g coins (Router.step_province_if_ok g coins counts ctx) := by
  intro c h
  unfold Router.step_province_if_ok at h
  split_ifs at h with h1 h2 <;> simp only [Option.some.injEq, Decision.BUY.injEq] at h
  subst h
  refine ⟨?_, in_stock_pos h1.2⟩
  have h8 : (8 : Int) ≤ coins := h1.1
  have hv : cost0 "province" = 8 := by decide
  omega

theorem step_gold_if_building_legal (g : Game) (coins : Int) (counts : String → Int)
    (ctx : Router.BuyCtx) : StepLegal g coins (Router.step_gold_if_building g coins counts ctx) := by
  intro c h
  unfold Router.step_gold_if_building at h
  split_ifs at h with h1 h2 <;> simp only [Option.some.injEq, Decision.BUY.injEq] at h
  subst h
  refine ⟨?_, in_stock_pos h1.2⟩
  have h8 : (8 : Int) ≤ coins := h1.1
  have hv : cost0 "gold" = 6 := by decide
  omega

theorem step_endgame_legal (g : Game) (coins : Int) (ctx : Router.BuyCtx)
    (my_score best_opp : Int) :
    StepLegal g coins (Router.step_endgame g coins ctx my_score best_opp) :=
  endgame_buy_legal g coins ctx.provinces_left my_score best_opp ctx.turn

theorem step_midgame_legal (g : Game) (coins : Int) (ctx : Router.BuyCtx)
    (my_score best_opp : Int) :
    StepLegal g coins (Router.step_midgame g coins ctx my_score best_opp) :=
  midgame_buy_legal g coins ctx.provinces_left my_score best_opp ctx.turn

theorem step_gardens_primary_legal (g : Game) (coins : Int) (gp : Bool) :
    StepLegal g coins (Router.step_gardens_primary g coins gp) := by
  intro c h
  unfold Router.step_gardens_primary at h
  split_ifs at h with h1
  simp only [Option.some.injEq, Decision.BUY.injEq] at h
  subst h
  refine ⟨?_, in_stock_pos h1.2.2⟩
  have h4 : (4 : Int) ≤ coins := h1.2.1
  have hv : cost0 "gardens" = 4 := by decide
  omega

theorem step_gardens_secondary_legal (g : Game) (coins : Int) (counts : String → Int)
    (gp : Bool) : StepLegal g coins (Router.step_gardens_secondary g coins counts gp) := by
  intro c h
  unfold Router.step_gardens_secondary at h
  split_ifs at h with h1
  exact five_cost_buy_legal g coins counts true c h

theorem step_economy_legal (g : Game) (coins : Int) :
    StepLegal g coins (Router.step_economy g coins) :=
  economy_buy_legal g coins

theorem step_five_legal (g : Game) (coins : Int) (counts : String → Int) :
    StepLegal g coins (Router.step_five g coins counts) :=
  five_cost_buy_legal g coins counts false

theorem step_four_legal (g : Game) (coins : Int) (counts : String → Int) :
    StepLegal g coins (Router.step_four g coins counts) :=
  four_cost_buy_legal g coins counts

theorem step_three_legal (g : Game) (coins : Int) :
    StepLegal g coins (Router.step_three g coins) :=
  three_cost_buy_legal g coins

theorem buySteps_legal (g : Game) (coins : Int) (me_idx : Nat) (s : TState) :
    ∀ o ∈ Router.buySteps g coins me_idx s, StepLegal g coins o := by
  intro o ho
  simp only [Router.buySteps, List.mem_cons, List.not_mem_nil, or_false] at ho
  rcases ho with rfl | rfl | rfl | rfl | rfl | rfl | rfl | rfl | rfl | rfl | rfl | rfl
  · exact step_opening_legal g coins s.counts s.turn
  · exact step_province_if_ok_legal g coins s.counts _
  · exact step_gold_if_building_legal g coins s.counts _
  · exact step_endgame_legal g coins _ _ _
  · exact step_midgame_legal g coins _ _ _
  · exact step_gardens_primary_legal g coins _
  · exact step_gardens_secondary_legal g coins s.counts _
  · exact six_cost_buy_legal g coins s.counts s.turn
  · exact step_economy_legal g coins
  · exact step_five_legal g coins s.counts
  · exact step_four_legal g coins s.counts
  · exact step_three_legal g coins

theorem exists_of_findSome?_id {l : List (Option Decision)} {d : Decision}
    (h : l.findSome? id = some d) : ∃ o ∈ l, o = some d := by
  induction l with
  | nil => simp [List.findSome?] at h
  | cons x xs ih =>
    rw [List.findSome?_cons] at h
    cases x with
    | some b =>
      simp only [id_eq, Option.some.injEq] at h
      exact ⟨some b, List.mem_cons_self _ _, by rw [h]⟩
    | none =>
      simp only [id_eq] at h
      obtain ⟨o, ho, heq⟩ := ih h
      exact ⟨o, List.mem_cons_of_mem _ ho, heq⟩

theorem choose_buy_action_legal (g : Game) (coins : Int) (me_idx : Nat) (s : TState)
    (c : String) (h : Router.choose_buy_action g coins me_idx s = .BUY c) :
    (cost0 c : Int) ≤ coins ∧ 0 < g.stock c := by
  unfold Router.choose_buy_action at h
  cases hf : (Router.buySteps g coins me_idx s).findSome? id with
  | none => rw [hf] at h; simp at h
  | some d =>
    rw [hf] at h
    simp only [Option.getD_some] at h
    subst h
    obtain ⟨o, ho, hoid⟩ := exists_of_findSome?_id hf
    exact buySteps_legal g coins me_idx s o ho c hoid

/-- C1: for every snapshot and turn state, if `/play` emits `BUY <card>` then
at the moment of emission the available coins (treasure coins in hand plus
`action_coins`) cover `COSTS[card]`, the total buys remaining
(`buys_left + extra_buys`) is strictly positive, and the card's supply stock
is strictly positive. -/
theorem buy_emission_is_legal (g : Game) (s : TState) (card : String)
    (h : Router.play_decision g s = .ok (.BUY card)) :
    (cost0 card : Int) ≤
        Router.compute_treasure_coins g (Router.find_me g) + s.action_coins ∧
    0 < s.buys_left + s.extra_buys ∧
    0 < g.stock card := by
  unfold Router.play_decision at h
  cases hp : Router.play g s with
  | error e => rw [hp] at h; simp [Except.map] at h
  | ok p =>
    rw [hp] at h
    rcases p with ⟨d, s'⟩
    simp only [Except.map, Except.ok.injEq] at h
    subst h
    have hinv := play_buy_inversion hp
    obtain ⟨hcb, hbuys, -, -, -⟩ := playBuyPhase_buy_inversion hinv
    obtain ⟨-, hg2, hg3, hg4, -⟩ := gardensInit_fields g (Router.find_me g) s
    obtain ⟨hcost, hstock⟩ := choose_buy_action_legal _ _ _ _ _ hcb
    refine ⟨?_, ?_, hstock⟩
    · rw [hg2] at hcost; exact hcost
    · rw [hg3, hg4] at hbuys; exact hbuys

theorem buy_emission_is_legal_witness :
    Router.play_decision gBuyEx sBuyEx = .ok (.BUY "province") ∧
    ((cost0 "province" : Int) ≤
        Router.compute_treasure_coins gBuyEx (Router.find_me gBuyEx) + sBuyEx.action_coins ∧
     0 < sBuyEx.buys_left + sBuyEx.extra_buys ∧
     0 < gBuyEx.stock "province") :=
  ⟨rfl, buy_emission_is_legal gBuyEx sBuyEx "province" rfl⟩

theorem post_buy_resources_nonneg_witness :
    Router.play gBuyEx sBuyEx = .ok (.BUY "province", sBuyExPost) ∧
    (0 ≤ sBuyExPost.coins_left ∧ 0 ≤ sBuyExPost.buys_left) :=
  ⟨rfl, post_buy_resources_nonneg gBuyEx sBuyEx "province" sBuyExPost rfl⟩

/-! ## The strategy-package buy pipeline (`src/app/strategy/pipeline.py`)

The strategy package has its own copies of the cost-bracket helpers
(`buys.py`) that call `utils.terminal_capacity` (no base-1 term) instead of
the router's `_terminal_capacity`, plus three steps the router pipeline does
not have (`step_vp_override`, `step_silver_floor`, `step_last_resort_menu`)
and a copper filler after the step loop.  `pipeline.py` never imports
`COSTS`, so the two `COSTS.get(...)` lookups inside
`step_last_resort_menu` raise `NameError` whenever execution reaches them;
that raise is modelled as `.error ()`. -/

namespace Strat

/-- `score_status` from `src/app/strategy/utils.py` (lines 263-277):
`safe_get_me` resolves `me` by index (out-of-range gives `None` and
`my_score = 0`), and `best_opp` starts from 0 (it is floored at zero) and
skips only the `me` entry. -/
def score_status (g : Game) (me_idx : Nat) : Int × Int :=
  match g.players.get? me_idx with
  | some me =>
    (me.score.getD 0,
     (g.players.enum.filter (fun ip => ip.1 != me_idx)).foldl
       (fun acc ip => max acc (ip.2.score.getD 0)) 0)
  | none => (0, g.players.foldl (fun acc p => max acc (p.score.getD 0)) 0)

/-- `five_wishlist` from `buys.py` (lines 125-153); the capacity gate uses
`utils.terminal_capacity`. -/
def five_wishlist (g : Game) (counts : String → Int) (coins : Int) (gardens_plan : Bool) :
    List String :=
  (if 0 < g.stock "curse" ∧ in_stock g "witch" then ["witch"] else []) ++
  (if in_stock g "laboratory" ∧ counts "laboratory" < MAX_LABS then ["laboratory"] else []) ++
  (if Utils.terminal_capacity counts ≤ 0 then
     (["market", "festival"].filter (fun c => in_stock g c)) ++
     (if in_stock g "village" ∧ BUY_4_COST_COINS ≤ coins then ["village"] else [])
   else []) ++
  (if gardens_plan then
     ["market", "festival", "laboratory"].filter (fun c => in_stock g c)
   else []) ++
  (FIVE_COST_PREFER.filter (fun c => in_stock g c)) ++
  (if in_stock g "silver" then ["silver"] else [])

/-- `five_cost_buy` from `buys.py` (lines 156-160). -/
def five_cost_buy (g : Game) (coins : Int) (counts : String → Int) (gardens_plan : Bool) :
    Option Decision :=
  if coins < BUY_5_COST_COINS then none
  else
    match five_wishlist g counts coins gardens_plan with
    | [] => none
    | c :: _ => some (.BUY c)

/-- `four_cost_buy` from `buys.py` (lines 163-177); the village gate uses
`utils.terminal_capacity`. -/
def four_cost_buy (g : Game) (coins : Int) (counts : String → Int) : Option Decision :=
  if coins < BUY_4_COST_COINS then none
  else
    match ["moneylender", "militia", "port", "poacher", "remodel",
        "remake"].find? (fun c => in_stock g c) with
    | some c => some (.BUY c)
    | none =>
      if Utils.terminal_capacity counts ≤ 0 ∧ in_stock g "village" then some (.BUY "village")
      else if in_stock g "smithy" then some (.BUY "smithy")
      else if in_stock g "gardens" then some (.BUY "gardens")
      else if in_stock g "silver" then some (.BUY "silver")
      else none

/-- `six_cost_buy` from `buys.py` (lines 256-272): hireling while
`turn <= EARLY_HIRELING_TURN`, distantshore when the engine is ready and
`turn < RUSH_TURN - EARLY_HIRELING_TURN`. -/
def six_cost_buy (g : Game) (coins : Int) (counts : String → Int) (turn : Int) :
    Option Decision :=
  if coins < BUY_GOLD_COINS then none
  else if in_stock g "hireling" ∧ counts "hireling" = 0 ∧ turn ≤ EARLY_HIRELING_TURN then
    some (.BUY "hireling")
  else if in_stock g "distantshore" ∧ engine_ready counts ∧
      turn < RUSH_TURN - EARLY_HIRELING_TURN then
    some (.BUY "distantshore")
  else none

/-- `step_opening` (`pipeline.py` lines 26-27). -/
def step_opening (g : Game) (coins : Int) (counts : String → Int) (turn : Int) :
    Option Decision :=
  opening_buys g coins counts turn

/-- `step_province_if_ok` (`pipeline.py` lines 30-34). -/
def step_province_if_ok (g : Game) (coins : Int) (counts : String → Int)
    (ctx : Router.BuyCtx) : Option Decision :=
  if BUY_PROVINCE_COINS ≤ coins ∧ in_stock g "province" then
    if early_province_ok counts ctx.provinces_left ctx.turn ctx.score_gap then
      some (.BUY "province")
    else none
  else none

/-- `step_gold_if_building` (`pipeline.py` lines 37-46). -/
def step_gold_if_building (g : Game) (coins : Int) (counts : String → Int)
    (ctx : Router.BuyCtx) : Option Decision :=
  if BUY_GOLD_COINS ≤ coins ∧ in_stock g "gold" then
    if !(early_province_ok counts ctx.provinces_left ctx.turn ctx.score_gap) then
      some (.BUY "gold")
    else none
  else none

/-- `step_vp_override` (`pipeline.py` lines 49-59). -/
def step_vp_override (g : Game) (coins : Int) (ctx : Router.BuyCtx) : Option Decision :=
  if ctx.provinces_left ≤ 4 ∨ RUSH_TURN - 5 ≤ ctx.turn then
    if (8 : Int) ≤ coins ∧ in_stock g "province" then some (.BUY "province")
    else if (5 : Int) ≤ coins ∧ in_stock g "duchy" then some (.BUY "duchy")
    else if (2 : Int) ≤ coins ∧ in_stock g "estate" then some (.BUY "estate")
    else none
  else none

/-- `step_endgame` (`pipeline.py` lines 62-63). -/
def step_endgame (g : Game) (coins : Int) (ctx : Router.BuyCtx) (my_score best_opp : Int) :
    Option Decision :=
  endgame_buy g coins ctx.provinces_left my_score best_opp ctx.turn

/-- `step_midgame` (`pipeline.py` lines 66-67). -/
def step_midgame (g : Game) (coins : Int) (ctx : Router.BuyCtx) (my_score best_opp : Int) :
    Option Decision :=
  midgame_buy g coins ctx.provinces_left my_score best_opp ctx.turn

/-- `step_gardens_primary` (`pipeline.py` lines 70-73). -/
def step_gardens_primary (g : Game) (coins : Int) (gardens_plan : Bool) : Option Decision :=
  if gardens_plan ∧ BUY_4_COST_COINS ≤ coins ∧ in_stock g "gardens" then some (.BUY "gardens")
  else none

/-- `step_gardens_secondary` (`pipeline.py` lines 76-81). -/
def step_gardens_secondary (g : Game) (coins : Int) (counts : String → Int)
    (gardens_plan : Bool) : Option Decision :=
  if !gardens_plan then none else five_cost_buy g coins counts true

/-- `step_silver_floor` (`pipeline.py` lines 84-89). -/
def step_silver_floor (g : Game) (coins : Int) (counts : String → Int) (turn : Int) :
    Option Decision :=
  if (coins = 3 ∨ coins = 4) ∧ counts "silver" < 2 ∧ turn ≤ 10 then
    if in_stock g "silver" then some (.BUY "silver") else none
  else none

/-- `step_economy` (`pipeline.py` lines 92-93). -/
def step_economy (g : Game) (coins : Int) : Option Decision := economy_buy g coins

/-- `step_five` (`pipeline.py` lines 96-97). -/
def step_five (g : Game) (coins : Int) (counts : String → Int) : Option Decision :=
  five_cost_buy g coins counts false

/-- `step_four` (`pipeline.py` lines 100-101). -/
def step_four (g : Game) (coins : Int) (counts : String → Int) : Option Decision :=
  four_cost_buy g coins counts

/-- `step_three` (`pipeline.py` lines 104-105). -/
def step_three (g : Game) (coins : Int) : Option Decision := three_cost_buy g coins

/-- The `engine_order` list of `step_last_resort_menu`. -/
def lastResortOrder : List String :=
  ["market", "festival", "laboratory", "village", "farmingvillage", "port",
   "poacher", "smithy", "councilroom", "library"]

/-- `step_last_resort_menu` (`pipeline.py` lines 107-127).  `pipeline.py`
never imports `COSTS`, so `COSTS.get(card, 99)` raises `NameError` on the
first stocked engine card that passes the capacity gate (before any coin
comparison), and `COSTS.get("silver", 3)` likewise raises when the silver
clause's first two conjuncts hold; both raises are `.error ()`.  When no
lookup is reached the function returns `None`. -/
def step_last_resort_menu (g : Game) (coins : Int) (counts : String → Int) :
    Except Unit (Option Decision) :=
  let cap := Utils.terminal_capacity counts
  match lastResortOrder.find? (fun card =>
      in_stock g card &&
      !(decide (card ∈ ["smithy", "councilroom", "library"]) && decide (cap ≤ 0))) with
  | some _ => .error ()
  | none =>
    if counts "silver" < 1 ∧ in_stock g "silver" then .error ()
    else .ok none

/-- The 14 pure steps of `pipeline.choose_buy_action`'s `steps` tuple
(lines 170-184), with the locals computed as there (the 15th step,
`step_last_resort_menu`, is fallible and handled separately). -/
def pureSteps (g : Game) (coins : Int) (me_idx : Nat) (s : TState) : List (Option Decision) :=
  let counts := s.counts
  let provinces_left : Int := (g.stock "province" : Int)
  let ms := score_status g me_idx
  let gardens_plan := s.gardens_plan.getD false
  let turn := s.turn
  let ctx : Router.BuyCtx := ⟨provinces_left, ms.1 - ms.2, turn⟩
  [step_opening g coins counts turn,
   step_province_if_ok g coins counts ctx,
   step_gold_if_building g coins counts ctx,
   step_vp_override g coins ctx,
   step_endgame g coins ctx ms.1 ms.2,
   step_midgame g coins ctx ms.1 ms.2,
   step_gardens_primary g coins gardens_plan,
   step_gardens_secondary g coins counts gardens_plan,
   step_silver_floor g coins counts turn,
   step_economy g coins,
   six_cost_buy g coins counts turn,
   step_five g coins counts,
   step_four g coins counts,
   step_three g coins]

/-- `choose_buy_action` (`pipeline.py` lines 162-198): the first non-null
step result wins (the loop returns before running later steps, so the
fallible 15th step only runs when the 14 pure steps all decline); after the
loop the copper filler may fire (`gardens_plan`, copper stocked, and spare
buys or `turn >= 18`), else `END_TURN`. -/
def choose_buy_action (g : Game) (coins : Int) (me_idx : Nat) (s : TState) :
    Except Unit Decision :=
  let gardens_plan := s.gardens_plan.getD false
  match (pureSteps g coins me_idx s).findSome? id with
  | some d => .ok d
  | none =>
    match step_last_resort_menu g coins s.counts with
    | .error e => .error e
    | .ok (some d) => .ok d
    | .ok none =>
      if gardens_plan ∧ in_stock g "copper" then
        if (0 < s.extra_buys ∨ 1 < s.buys_left) ∨ (18 : Int) ≤ s.turn then .ok (.BUY "copper")
        else .ok .END_TURN
      else .ok .END_TURN

end Strat

/-! ## The strategy registry (`src/app/strategy/strategies.py`) -/

namespace Strat

/-- `COSTS.get(card, 99)` (the default used by `_combo_engine`'s last-resort
loop; `strategies.py` does import `COSTS`). -/
def cost99 (c : String) : Nat :=
  match COSTS.find? (fun p => p.1 == c) with
  | some p => p.2
  | none => 99

/-- `_vp_pressure_fallback` (`strategies.py` lines 172-183): the nested
`if coins/stock: if window: return` pairs flatten to conjunction chains
(when the outer test holds but the window does not, control falls to the
next pair). -/
def vp_pressure_fallback (g : Game) (coins : Int) (turn : Int) : Option Decision :=
  let provinces_left : Int := (g.stock "province" : Int)
  if (BUY_PROVINCE_COINS ≤ coins ∧ in_stock g "province") ∧
      (provinces_left ≤ ENDGAME_PROVINCE_THRESHOLD ∨ RUSH_TURN - 3 ≤ turn) then
    some (.BUY "province")
  else if (BUY_5_COST_COINS ≤ coins ∧ in_stock g "duchy") ∧
      (provinces_left ≤ ENDGAME_PROVINCE_THRESHOLD ∨ RUSH_TURN - 1 ≤ turn) then
    some (.BUY "duchy")
  else if (2 : Int) ≤ coins ∧ in_stock g "estate" ∧ (provinces_left ≤ 2 ∨ RUSH_TURN ≤ turn) then
    some (.BUY "estate")
  else none

/-- `_bm_smithy` (`strategies.py` lines 189-223). -/
def bm_smithy (g : Game) (coins : Int) (me_idx : Nat) (s : TState) : Decision :=
  let counts := s.counts
  let turn := s.turn
  match vp_pressure_fallback g coins turn with
  | some d => d
  | none =>
    if BUY_PROVINCE_COINS ≤ coins ∧ in_stock g "province" then .BUY "province"
    else if BUY_GOLD_COINS ≤ coins ∧ in_stock g "gold" then .BUY "gold"
    else if BUY_5_COST_COINS ≤ coins ∧ counts "smithy" < 2 ∧ in_stock g "smithy" then
      .BUY "smithy"
    else if BUY_5_COST_COINS ≤ coins ∧ in_stock g "laboratory" then .BUY "laboratory"
    else if BUY_5_COST_COINS ≤ coins ∧ in_stock g "duchy" then .BUY "duchy"
    else if BUY_SILVER_COINS ≤ coins ∧ in_stock g "silver" then .BUY "silver"
    else .END_TURN

/-- `_village_smithy` (`strategies.py` lines 229-273). -/
def village_smithy (g : Game) (coins : Int) (me_idx : Nat) (s : TState) : Decision :=
  let counts := s.counts
  let turn := s.turn
  let cap := Utils.terminal_capacity counts
  match vp_pressure_fallback g coins turn with
  | some d => d
  | none =>
    if BUY_PROVINCE_COINS ≤ coins ∧ in_stock g "province" then .BUY "province"
    else if BUY_GOLD_COINS ≤ coins ∧ in_stock g "gold" then .BUY "gold"
    else
      match (if BUY_5_COST_COINS ≤ coins then
               ["laboratory", "market", "festival"].find? (fun c => in_stock g c)
             else none) with
      | some c => .BUY c
      | none =>
        if BUY_5_COST_COINS ≤ coins ∧ 0 < cap ∧ counts "smithy" < 5 ∧ in_stock g "smithy" then
          .BUY "smithy"
        else if BUY_5_COST_COINS ≤ coins ∧ in_stock g "duchy" ∧ RUSH_TURN - 4 ≤ turn then
          .BUY "duchy"
        else if BUY_4_COST_COINS ≤ coins ∧ in_stock g "village" ∧ counts "village" < 6 then
          .BUY "village"
        else
          match (if BUY_4_COST_COINS ≤ coins then
                   ["moneylender", "militia", "remodel", "remake", "port",
                    "poacher"].find? (fun c => in_stock g c)
                 else none) with
          | some c => .BUY c
          | none =>
            if BUY_SILVER_COINS ≤ coins ∧ in_stock g "silver" then .BUY "silver"
            else .END_TURN

/-- `_militia_market_counter` (`strategies.py` lines 279-333). -/
def militia_market_counter (g : Game) (coins : Int) (me_idx : Nat) (s : TState) : Decision :=
  let counts := s.counts
  let turn := s.turn
  let cap := Utils.terminal_capacity counts
  match vp_pressure_fallback g coins turn with
  | some d => d
  | none =>
    if BUY_PROVINCE_COINS ≤ coins ∧ in_stock g "province" then .BUY "province"
    else if counts "militia" = 0 ∧ BUY_4_COST_COINS ≤ coins ∧ in_stock g "militia" then
      .BUY "militia"
    else if BUY_5_COST_COINS ≤ coins ∧ counts "market" < 5 ∧ in_stock g "market" then
      .BUY "market"
    else if ¬((1 : Int) ≤ counts "gold") ∧ BUY_GOLD_COINS ≤ coins ∧ in_stock g "gold" then
      .BUY "gold"
    else if BUY_5_COST_COINS ≤ coins ∧ counts "smithy" < 5 ∧ 0 < cap ∧ in_stock g "smithy" then
      .BUY "smithy"
    else if BUY_4_COST_COINS ≤ coins ∧ counts "village" < 6 ∧ in_stock g "village" then
      .BUY "village"
    else if (2 : Int) ≤ coins ∧ counts "cellar" = 0 ∧ in_stock g "cellar" then .BUY "cellar"
    else if BUY_GOLD_COINS ≤ coins ∧ in_stock g "gold" then .BUY "gold"
    else if BUY_SILVER_COINS ≤ coins ∧ in_stock g "silver" then .BUY "silver"
    else .END_TURN

/-- `_remodel_market_engine` (`strategies.py` lines 339-400). -/
def remodel_market_engine (g : Game) (coins : Int) (me_idx : Nat) (s : TState) : Decision :=
  let counts := s.counts
  let turn := s.turn
  let cap := Utils.terminal_capacity counts
  match vp_pressure_fallback g coins turn with
  | some d => d
  | none =>
    if BUY_PROVINCE_COINS ≤ coins ∧ in_stock g "province" then .BUY "province"
    else if counts "remodel" = 0 ∧ BUY_4_COST_COINS ≤ coins ∧ in_stock g "remodel" then
      .BUY "remodel"
    else if counts "gold" < 2 ∧ BUY_GOLD_COINS ≤ coins ∧ in_stock g "gold" then .BUY "gold"
    else if counts "militia" = 0 ∧ BUY_4_COST_COINS ≤ coins ∧ in_stock g "militia" then
      .BUY "militia"
    else if BUY_5_COST_COINS ≤ coins ∧ counts "market" < 4 ∧ in_stock g "market" then
      .BUY "market"
    else if counts "cellar" = 0 ∧ (2 : Int) ≤ coins ∧ in_stock g "cellar" then .BUY "cellar"
    else if BUY_4_COST_COINS ≤ coins ∧ in_stock g "village" then .BUY "village"
    else if BUY_5_COST_COINS ≤ coins ∧ 0 < cap ∧ counts "smithy" < MAX_SMITHIES ∧
        in_stock g "smithy" then
      .BUY "smithy"
    else if BUY_GOLD_COINS ≤ coins ∧ in_stock g "gold" then .BUY "gold"
    else if BUY_SILVER_COINS ≤ coins ∧ in_stock g "silver" then .BUY "silver"
    else .END_TURN

/-- `_combo_engine` (`strategies.py` lines 34-165).  The state dict is the
router's per-match state, which never contains the `curses_left` or
`opp_has_witch` keys, so their `state.get` defaults apply: `curses_left`
is the curse stock and `opp_has_witch` is `False`. -/
def combo_engine (g : Game) (coins : Int) (me_idx : Nat) (s : TState) : Decision :=
  let counts := s.counts
  let turn := s.turn
  let cap := Utils.terminal_capacity counts
  let provinces_left : Int := (g.stock "province" : Int)
  let curses_left : Int := (g.stock "curse" : Int)
  let opp_has_witch : Bool := false
  let terminals : Int := counts "smithy" + counts "witch" + counts "militia" +
    counts "bandit" + counts "bureaucrat" + counts "chancellor" + counts "councilroom" +
    counts "library" + counts "adventurer"
  let plus_actions : Int := counts "village" + counts "market" + counts "festival" +
    counts "farmingvillage" + counts "port" + counts "poacher" + counts "laboratory"
  let deficit : Int := max 0 (terminals - plus_actions)
  let engine_stable : Bool :=
    decide ((3 : Int) ≤ counts "market" + counts "laboratory" + counts "festival") ||
    (decide ((2 : Int) ≤ counts "village" + counts "farmingvillage" + counts "port") &&
     decide ((1 : Int) ≤ counts "smithy" + counts "councilroom" + counts "library"))
  let ms := score_status g me_idx
  if (BUY_PROVINCE_COINS ≤ coins ∧ in_stock g "province") ∧
      (provinces_left ≤ 5 ∨ engine_stable = true ∨ (10 : Int) ≤ turn ∨
       (6 : Int) ≤ ms.1 - ms.2) then
    .BUY "province"
  else if in_stock g "chapel" ∧ counts "chapel" < 1 ∧
      (coins = 2 ∨ coins = 3 ∨ coins = 4) ∧ turn ≤ 2 then
    .BUY "chapel"
  else if BUY_5_COST_COINS ≤ coins ∧ in_stock g "witch" ∧ opp_has_witch = true ∧
      0 < curses_left ∧ counts "witch" < 2 ∧ 0 < cap then
    .BUY "witch"
  else
    match (if 0 < deficit ∧ BUY_4_COST_COINS ≤ coins then
             ["village", "farmingvillage", "port"].find? (fun c => in_stock g c)
           else none) with
    | some c => .BUY c
    | none =>
      if 0 < deficit ∧ BUY_4_COST_COINS ≤ coins ∧ in_stock g "poacher" then .BUY "poacher"
      else
        match (if 0 < deficit ∧ BUY_5_COST_COINS ≤ coins then
                 ["market", "festival", "laboratory"].find? (fun c => in_stock g c)
               else none) with
        | some c => .BUY c
        | none =>
          match (if BUY_5_COST_COINS ≤ coins then
                   ["market", "laboratory", "festival"].find? (fun c => in_stock g c)
                 else none) with
          | some c => .BUY c
          | none =>
            match (if BUY_4_COST_COINS ≤ coins then
                     ["poacher", "port", "village", "farmingvillage"].find?
                       (fun c => in_stock g c)
                   else none) with
            | some c => .BUY c
            | none =>
              match (if 0 < cap ∧ BUY_4_COST_COINS ≤ coins then
                       ["smithy", "councilroom", "library"].find? (fun c =>
                         in_stock g c &&
                         !(c == "library" && decide ((1 : Int) ≤ counts "library")))
                     else none) with
              | some c => .BUY c
              | none =>
                if turn ≤ 3 ∧ (3 : Int) ≤ coins ∧ in_stock g "workshop" ∧
                    counts "workshop" < 1 then
                  .BUY "workshop"
                else if turn ≤ 4 ∧ (4 : Int) ≤ coins ∧ in_stock g "remodel" ∧
                    counts "remodel" < 1 then
                  .BUY "remodel"
                else if BUY_5_COST_COINS ≤ coins ∧ in_stock g "bandit" ∧ 0 < cap ∧
                    counts "bandit" < 2 ∧
                    (engine_stable = true ∨ (2 : Int) ≤ plus_actions) then
                  .BUY "bandit"
                else if BUY_GOLD_COINS ≤ coins ∧
                    ((2 : Int) ≤ plus_actions ∨ engine_stable = true) ∧ in_stock g "gold" then
                  .BUY "gold"
                else if (coins = 3 ∨ coins = 4) ∧ counts "silver" < 1 ∧
                    ¬((BUY_4_COST_COINS ≤ coins ∧
                        (in_stock g "village" ∨ in_stock g "farmingvillage" ∨
                         in_stock g "port" ∨ in_stock g "poacher")) ∨
                      (BUY_5_COST_COINS ≤ coins ∧
                        (in_stock g "market" ∨ in_stock g "laboratory" ∨
                         in_stock g "festival"))) ∧
                    in_stock g "silver" then
                  .BUY "silver"
                else
                  match ["market", "laboratory", "festival", "village", "farmingvillage",
                      "port", "poacher", "smithy", "councilroom", "library", "silver",
                      "gold"].find? (fun c =>
                        in_stock g c && decide ((cost99 c : Int) ≤ coins) &&
                        !(decide (c ∈ ["smithy", "councilroom", "library"]) &&
                          decide (cap ≤ 0)) &&
                        !(c == "silver" && decide ((1 : Int) ≤ counts "silver"))) with
                  | some c => .BUY c
                  | none => .END_TURN

/-- The `STRATEGY_BUYERS` registry (`strategies.py` lines 405-412): a dict
from strategy key to buyer.  The five dedicated strategies are pure; the
baseline entry is `pipeline.choose_buy_action`, which can raise. -/
def STRATEGY_BUYERS :
    List (String × (Game → Int → Nat → TState → Except Unit Decision)) :=
  [("baseline", choose_buy_action),
   ("bm_smithy", fun g c i s => .ok (bm_smithy g c i s)),
   ("village_smithy", fun g c i s => .ok (village_smithy g c i s)),
   ("militia_market_counter", fun g c i s => .ok (militia_market_counter g c i s)),
   ("remodel_market_engine", fun g c i s => .ok (remodel_market_engine g c i s)),
   ("combo_engine", fun g c i s => .ok (combo_engine g c i s))]

/-- `choose_buy_action_for_strategy` (`strategies.py` lines 415-419):
`STRATEGY_BUYERS.get(strategy_key, pipeline.choose_buy_action)` applied to
the arguments. -/
def choose_buy_action_for_strategy (strategy_key : String) (g : Game) (coins : Int)
    (me_idx : Nat) (s : TState) : Except Unit Decision :=
  (((STRATEGY_BUYERS.find? (fun kv => kv.1 = strategy_key)).map Prod.snd).getD
    choose_buy_action) g coins me_idx s

end Strat

/-! ## The strategy pipeline never proposes copper outside the filler (claim C5) -/

/-- A step result that is not `BUY copper`. -/
def NoCopper (o : Option Decision) : Prop := o ≠ some (Decision.BUY "copper")

theorem none_nc : NoCopper (none : Option Decision) := fun h => Option.noConfusion h

theorem no_copper_of_mem {l : List String} {c : String} (hmem : c ∈ l)
    (hl : "copper" ∉ l) : NoCopper (some (Decision.BUY c)) := by
  intro h
  simp only [Option.some.injEq, Decision.BUY.injEq] at h
  subst h
  exact hl hmem

theorem orElseO_nc {a b : Option Decision} (ha : NoCopper a) (hb : NoCopper b) :
    NoCopper (orElseO a b) := by
  cases a with
  | some d => exact ha
  | none => exact hb

theorem ite_nc {P : Prop} [Decidable P] {a : Option Decision} (ha : NoCopper a) :
    NoCopper (if P then a else none) := by
  split_ifs
  · exact ha
  · exact none_nc

theorem opening_buy_5plus_nc (g : Game) : NoCopper (opening_buy_5plus g) := by
  unfold opening_buy_5plus NoCopper
  split_ifs with h1
  · decide
  · cases hf : ["laboratory", "market", "festival", "councilroom"].find?
        (fun c => in_stock g c) with
    | some c => exact no_copper_of_mem (find?_in_stock hf).1 (by decide)
    | none => exact none_nc

theorem opening_buy_4_nc (g : Game) : NoCopper (opening_buy_4 g) := by
  unfold opening_buy_4 NoCopper
  cases hf : ["moneylender", "militia", "smithy", "remodel", "remake", "poacher",
      "port"].find? (fun c => in_stock g c) with
  | some c => exact no_copper_of_mem (find?_in_stock hf).1 (by decide)
  | none => split_ifs <;> first | decide | exact none_nc

theorem opening_buy_3_nc (g : Game) : NoCopper (opening_buy_3 g) := by
  unfold opening_buy_3 NoCopper
  cases hf : ["workshop", "village", "woodcutter"].find? (fun c => in_stock g c) with
  | some c => exact no_copper_of_mem (find?_in_stock hf).1 (by decide)
  | none => split_ifs <;> first | decide | exact none_nc

theorem opening_buy_2_nc (g : Game) (counts : String → Int) :
    NoCopper (opening_buy_2 g counts) := by
  unfold opening_buy_2 NoCopper
  split_ifs <;> first | decide | exact none_nc

theorem opening_buys_nc (g : Game) (coins : Int) (counts : String → Int) (turn : Int) :
    NoCopper (opening_buys g coins counts turn) := by
  unfold opening_buys
  by_cases ht : OPENING_TURN_LIMIT < turn
  · rw [if_pos ht]; exact none_nc
  · rw [if_neg ht]
    exact orElseO_nc (ite_nc (opening_buy_5plus_nc g))
      (orElseO_nc (ite_nc (opening_buy_4_nc g))
        (orElseO_nc (ite_nc (opening_buy_3_nc g)) (ite_nc (opening_buy_2_nc g counts))))

theorem endgame_buy_nc (g : Game) (coins provinces_left my_score best_opp turn : Int) :
    NoCopper (endgame_buy g coins provinces_left my_score best_opp turn) := by
  unfold endgame_buy NoCopper
  split_ifs <;> first | decide | exact none_nc

theorem midgame_buy_nc (g : Game) (coins provinces_left my_score best_opp turn : Int) :
    NoCopper (midgame_buy g coins provinces_left my_score best_opp turn) := by
  unfold midgame_buy NoCopper
  split_ifs <;> first | decide | exact none_nc

theorem economy_buy_nc (g : Game) (coins : Int) : NoCopper (economy_buy g coins) := by
  unfold economy_buy NoCopper
  split_ifs <;> first | decide | exact none_nc

theorem three_cost_buy_nc (g : Game) (coins : Int) : NoCopper (three_cost_buy g coins) := by
  unfold three_cost_buy NoCopper
  by_cases h3 : COINS_EQ_3 ≤ coins
  · rw [if_pos h3]
    cases hf : ["workshop", "village", "woodcutter"].find? (fun c => in_stock g c) with
    | some c => exact no_copper_of_mem (find?_in_stock hf).1 (by decide)
    | none =>
      dsimp only
      by_cases hs : in_stock g "silver" = true
      · rw [if_pos hs]; decide
      · rw [if_neg hs]; exact none_nc
  · rw [if_neg h3]; exact none_nc

theorem five_wishlist_strat_mem {g : Game} {counts : String → Int} {coins : Int} {gp : Bool}
    {x : String} (hx : x ∈ Strat.five_wishlist g counts coins gp) :
    x ∈ ["witch", "laboratory", "market", "festival", "village", "silver"] := by
  unfold Strat.five_wishlist at hx
  simp only [List.mem_append] at hx
  rcases hx with ((((hx | hx) | hx) | hx) | hx) | hx
  · obtain ⟨rfl, -⟩ := mem_cond_singleton hx
    decide
  · obtain ⟨rfl, -⟩ := mem_cond_singleton hx
    decide
  · by_cases hc : Utils.terminal_capacity counts ≤ 0
    · rw [if_pos hc] at hx
      simp only [List.mem_append] at hx
      rcases hx with hx | hx
      · have hx2 := (mem_filter_stock hx).1
        simp only [List.mem_cons, List.not_mem_nil, or_false] at hx2
        rcases hx2 with rfl | rfl
        · decide
        · decide
      · obtain ⟨rfl, -⟩ := mem_cond_singleton hx
        decide
    · rw [if_neg hc] at hx
      simp at hx
  · by_cases hgp : gp = true
    · rw [if_pos hgp] at hx
      have hx2 := (mem_filter_stock hx).1
      simp only [List.mem_cons, List.not_mem_nil, or_false] at hx2
      rcases hx2 with rfl | rfl | rfl
      · decide
      · decide
      · decide
    · rw [if_neg hgp] at hx
      simp at hx
  · have hx2 := (mem_filter_stock hx).1
    simp only [FIVE_COST_PREFER, List.mem_cons, List.not_mem_nil, or_false] at hx2
    rcases hx2 with rfl | rfl | rfl
    · decide
    · decide
    · decide
  · obtain ⟨rfl, -⟩ := mem_cond_singleton hx
    decide

theorem five_cost_buy_strat_nc (g : Game) (coins : Int) (counts : String → Int) (gp : Bool) :
    NoCopper (Strat.five_cost_buy g coins counts gp) := by
  unfold Strat.five_cost_buy
  split_ifs
  · exact none_nc
  · cases hw : Strat.five_wishlist g counts coins gp with
    | nil => exact none_nc
    | cons c rest =>
      have hc : c ∈ Strat.five_wishlist g counts coins gp := by
        rw [hw]; exact List.mem_cons_self _ _
      exact no_copper_of_mem (five_wishlist_strat_mem hc) (by decide)

theorem four_cost_buy_strat_nc (g : Game) (coins : Int) (counts : String → Int) :
    NoCopper (Strat.four_cost_buy g coins counts) := by
  unfold Strat.four_cost_buy NoCopper
  by_cases h4 : coins < BUY_4_COST_COINS
  · rw [if_pos h4]; exact none_nc
  · rw [if_neg h4]
    cases hf : ["moneylender", "militia", "port", "poacher", "remodel",
        "remake"].find? (fun c => in_stock g c) with
    | some c => exact no_copper_of_mem (find?_in_stock hf).1 (by decide)
    | none =>
      dsimp only
      split_ifs <;> first | decide | exact none_nc

theorem six_cost_buy_strat_nc (g : Game) (coins : Int) (counts : String → Int) (turn : Int) :
    NoCopper (Strat.six_cost_buy g coins counts turn) := by
  unfold Strat.six_cost_buy NoCopper
  split_ifs <;> first | decide | exact none_nc

theorem step_province_if_ok_strat_nc (g : Game) (coins : Int) (counts : String → Int)
    (ctx : Router.BuyCtx) : NoCopper (Strat.step_province_if_ok g coins counts ctx) := by
  unfold Strat.step_province_if_ok NoCopper
  split_ifs <;> first | decide | exact none_nc

theorem step_gold_if_building_strat_nc (g : Game) (coins : Int) (counts : String → Int)
    (ctx : Router.BuyCtx) : NoCopper (Strat.step_gold_if_building g coins counts ctx) := by
  unfold Strat.step_gold_if_building NoCopper
  split_ifs <;> first | decide | exact none_nc

theorem step_vp_override_nc (g : Game) (coins : Int) (ctx : Router.BuyCtx) :
    NoCopper (Strat.step_vp_override g coins ctx) := by
  unfold Strat.step_vp_override NoCopper
  split_ifs <;> first | decide | exact none_nc

theorem step_gardens_primary_strat_nc (g : Game) (coins : Int) (gp : Bool) :
    NoCopper (Strat.step_gardens_primary g coins gp) := by
  unfold Strat.step_gardens_primary NoCopper
  split_ifs <;> first | decide | exact none_nc

theorem step_gardens_secondary_strat_nc (g : Game) (coins : Int) (counts : String → Int)
    (gp : Bool) : NoCopper (Strat.step_gardens_secondary g coins counts gp) := by
  unfold Strat.step_gardens_secondary
  split_ifs
  · exact none_nc
  · exact five_cost_buy_strat_nc g coins counts true

theorem step_silver_floor_nc (g : Game) (coins : Int) (counts : String → Int) (turn : Int) :
    NoCopper (Strat.step_silver_floor g coins counts turn) := by
  unfold Strat.step_silver_floor NoCopper
  split_ifs <;> first | decide | exact none_nc

theorem pureSteps_nc (g : Game) (coins : Int) (i : Nat) (s : TState) :
    ∀ o ∈ Strat.pureSteps g coins i s, NoCopper o := by
  intro o ho
  simp only [Strat.pureSteps, List.mem_cons, List.not_mem_nil, or_false] at ho
  rcases ho with rfl | rfl | rfl | rfl | rfl | rfl | rfl | rfl | rfl | rfl | rfl | rfl | rfl | rfl
  · exact opening_buys_nc g coins s.counts s.turn
  · exact step_province_if_ok_strat_nc g coins s.counts _
  · exact step_gold_if_building_strat_nc g coins s.counts _
  · exact step_vp_override_nc g coins _
  · exact endgame_buy_nc g coins _ _ _ _
  · exact midgame_buy_nc g coins _ _ _ _
  · exact step_gardens_primary_strat_nc g coins _
  · exact step_gardens_secondary_strat_nc g coins s.counts _
  · exact step_silver_floor_nc g coins s.counts s.turn
  · exact economy_buy_nc g coins
  · exact six_cost_buy_strat_nc g coins s.counts s.turn
  · exact five_cost_buy_strat_nc g coins s.counts false
  · exact four_cost_buy_strat_nc g coins s.counts
  · exact three_cost_buy_nc g coins

theorem step_last_resort_menu_no_some (g : Game) (coins : Int) (counts : String → Int)
    (d : Decision) : Strat.step_last_resort_menu g coins counts ≠ .ok (some d) := by
  unfold Strat.step_last_resort_menu
  dsimp only
  split
  · intro h; exact Except.noConfusion h
  · split_ifs
    · intro h; exact Except.noConfusion h
    · intro h
      injection h with h2
      exact Option.noConfusion h2

/-- A snapshot for the copper filler: empty players list, only copper in
stock. -/
def gC : Game :=
  { players := [], stock := fun c => if c = "copper" then 10 else 0 }

/-- A turn-18 state with the gardens pivot on and no spare buys
(`buys_left = 1`, `extra_buys = 0`). -/
def sC : TState :=
  { bought := false, counts := fun _ => 0, buys_left := 1, coins_left := 0,
    initialized_resources := true, phase := Phase.BUY, actions_left := 0,
    action_coins := 0, extra_buys := 0, turn := 18, gardens_plan := some true }

/-- C5 (amended): the strategy-package pipeline proposes `BUY copper` only
through the gardens filler after the step loop: the pivot must be on, copper
stocked, and spare buys present (`extra_buys > 0` or `buys_left > 1`) — or
`turn >= 18`, a case the filler also accepts without any spare buy. -/
theorem copper_only_gardens_filler (g : Game) (coins : Int) (i : Nat) (s : TState)
    (h : Strat.choose_buy_action g coins i s = .ok (.BUY "copper")) :
    s.gardens_plan.getD false = true ∧ 0 < g.stock "copper" ∧
    (0 < s.extra_buys ∨ 1 < s.buys_left ∨ (18 : Int) ≤ s.turn) := by
  unfold Strat.choose_buy_action at h
  dsimp only at h
  cases hf : (Strat.pureSteps g coins i s).findSome? id with
  | some d =>
    rw [hf] at h
    injection h with h2
    subst h2
    obtain ⟨o, ho, hoe⟩ := exists_of_findSome?_id hf
    exact absurd hoe (pureSteps_nc g coins i s o ho)
  | none =>
    rw [hf] at h
    cases hl : Strat.step_last_resort_menu g coins s.counts with
    | error e => rw [hl] at h; exact Except.noConfusion h
    | ok oo =>
      rw [hl] at h
      cases oo with
      | some d => exact absurd hl (step_last_resort_menu_no_some g coins s.counts d)
      | none =>
        split_ifs at h with h1 h2
        · refine ⟨h1.1, in_stock_pos h1.2, ?_⟩
          rcases h2 with (ha | hb) | hc
          · exact Or.inl ha
          · exact Or.inr (Or.inl hb)
          · exact Or.inr (Or.inr hc)
        · injection h with h2
          exact Decision.noConfusion h2
        · injection h with h2
          exact Decision.noConfusion h2

theorem copper_only_gardens_filler_witness :
    Strat.choose_buy_action gC 0 0 sC = .ok (.BUY "copper") ∧
    (sC.gardens_plan.getD false = true ∧ 0 < gC.stock "copper" ∧
     (0 < sC.extra_buys ∨ 1 < sC.buys_left ∨ (18 : Int) ≤ sC.turn)) :=
  ⟨rfl, copper_only_gardens_filler gC 0 0 sC rfl⟩

/-- C5 counterexample to "the filler fires only when spare buys exist": at
turn 18 with `buys_left = 1` and `extra_buys = 0` (no spare buy at all) the
pipeline still proposes `BUY copper`. -/
theorem copper_without_spare_buys :
    Strat.choose_buy_action gC 0 0 sC = .ok (.BUY "copper") ∧
    sC.extra_buys = 0 ∧ sC.buys_left = 1 ∧ sC.gardens_plan.getD false = true :=
  ⟨rfl, rfl, rfl, rfl⟩

/-! ## First-non-null step semantics (claim C6) -/

theorem findSome?_id_of_first {l : List (Option Decision)} {j : Nat} {d : Decision}
    (hj : l.get? j = some (some d)) (hk : ∀ k, k < j → l.get? k = some none) :
    l.findSome? id = some d := by
  induction l generalizing j with
  | nil => simp at hj
  | cons x xs ih =>
    cases j with
    | zero =>
      simp only [List.get?_cons_zero, Option.some.injEq] at hj
      subst hj
      rfl
    | succ n =>
      have h0 : x = none := by
        have := hk 0 (Nat.succ_pos n)
        simpa using this
      subst h0
      rw [List.findSome?_cons]
      simp only [id_eq]
      refine ih (by simpa using hj) ?_
      intro k hkk
      have hk1 := hk (k + 1) (Nat.succ_lt_succ hkk)
      simpa using hk1

theorem findSome?_id_none {l : List (Option Decision)} (h : ∀ o ∈ l, o = none) :
    l.findSome? id = none := by
  induction l with
  | nil => rfl
  | cons x xs ih =>
    have hx : x = none := h x (List.mem_cons_self _ _)
    subst hx
    rw [List.findSome?_cons]
    exact ih (fun o ho => h o (List.mem_cons_of_mem _ ho))

/-- C6 (amended): the first step with a non-null proposal decides the
pipeline's output.  For the router's `choose_buy_action` the claim holds in
full: the first non-null step result is returned, and `END_TURN` when all
12 steps decline.  The strategy-package pipeline obeys the same
first-non-null rule over its 14 pure steps, but its all-decline behaviour
deviates (copper filler / `NameError`): see the counterexample. -/
theorem pipeline_first_nonnull_step (g : Game) (coins : Int) (i : Nat) (s : TState) :
    (∀ j d, (Router.buySteps g coins i s).get? j = some (some d) →
        (∀ k, k < j → (Router.buySteps g coins i s).get? k = some none) →
        Router.choose_buy_action g coins i s = d) ∧
    ((∀ o ∈ Router.buySteps g coins i s, o = none) →
        Router.choose_buy_action g coins i s = .END_TURN) ∧
    (∀ j d, (Strat.pureSteps g coins i s).get? j = some (some d) →
        (∀ k, k < j → (Strat.pureSteps g coins i s).get? k = some none) →
        Strat.choose_buy_action g coins i s = .ok d) := by
  refine ⟨?_, ?_, ?_⟩
  · intro j d hj hk
    unfold Router.choose_buy_action
    rw [findSome?_id_of_first hj hk]
    rfl
  · intro h
    unfold Router.choose_buy_action
    rw [findSome?_id_none h]
    rfl
  · intro j d hj hk
    unfold Strat.choose_buy_action
    dsimp only
    rw [findSome?_id_of_first hj hk]

/-- C6 counterexample: an input on which every step of the strategy-package
pipeline declines (the 14 pure steps return `None` and the last-resort menu
falls through) yet the pipeline returns `BUY copper`, not `END_TURN`. -/
theorem pipeline_all_decline_not_end_turn :
    (∀ o ∈ Strat.pureSteps gC 0 0 sC, o = none) ∧
    Strat.step_last_resort_menu gC 0 sC.counts = .ok none ∧
    Strat.choose_buy_action gC 0 0 sC ≠ .ok Decision.END_TURN := by
  refine ⟨by decide, rfl, ?_⟩
  intro h
  have hval : Strat.choose_buy_action gC 0 0 sC = .ok (.BUY "copper") := rfl
  rw [hval] at h
  injection h with h2
  exact Decision.noConfusion h2

/-! ## Unregistered strategy keys (claim C7) -/

/-- For a key absent from the registry, `STRATEGY_BUYERS.get(key, baseline)`
dispatches to the baseline pipeline on the same arguments. -/
theorem choose_for_unregistered_eq_baseline (key : String) (g : Game) (coins : Int)
    (i : Nat) (s : TState) (hk : key ∉ Strat.STRATEGY_BUYERS.map Prod.fst) :
    Strat.choose_buy_action_for_strategy key g coins i s =
      Strat.choose_buy_action g coins i s := by
  unfold Strat.choose_buy_action_for_strategy
  have h : Strat.STRATEGY_BUYERS.find? (fun kv => kv.1 = key) = none := by
    rw [List.find?_eq_none]
    intro kv hkv
    simp only [decide_eq_true_eq]
    intro heq
    exact hk (heq ▸ List.mem_map_of_mem Prod.fst hkv)
  rw [h]
  rfl

theorem choose_for_unregistered_eq_baseline_witness :
    "mystery" ∉ Strat.STRATEGY_BUYERS.map Prod.fst ∧
    Strat.choose_buy_action_for_strategy "mystery" gC 0 0 sC =
      Strat.choose_buy_action gC 0 0 sC :=
  ⟨by decide, choose_for_unregistered_eq_baseline "mystery" gC 0 0 sC (by decide)⟩

/-- A snapshot with an engine card (market) in stock and nothing else: every
pure pipeline step declines at 0 coins, and the last-resort menu reaches its
`COSTS.get` lookup on the stocked market. -/
def gRaise : Game :=
  { players := [], stock := fun c => if c = "market" then 10 else 0 }

/-- A mid-match BUY-phase state (turn 5, past the opening window, gardens
pivot off). -/
def sRaise : TState :=
  { bought := false, counts := fun _ => 0, buys_left := 1, coins_left := 0,
    initialized_resources := true, phase := Phase.BUY, actions_left := 0,
    action_coins := 0, extra_buys := 0, turn := 5, gardens_plan := some false }

/-- C7 (code bug): `"mystery"` is not a registry key, and the dict-get
fallback does return exactly what the baseline pipeline returns on the same
arguments — but on this input that shared result is a raise (`NameError` on
the `COSTS` lookup that `pipeline.py` never imports), contradicting the
spec's requirement that unrecognized keys must not raise. -/
theorem unregistered_strategy_raises :
    "mystery" ∉ Strat.STRATEGY_BUYERS.map Prod.fst ∧
    Strat.choose_buy_action_for_strategy "mystery" gRaise 0 0 sRaise = .error () ∧
    Strat.choose_buy_action_for_strategy "mystery" gRaise 0 0 sRaise =
      Strat.choose_buy_action gRaise 0 0 sRaise := by
  exact ⟨by decide, rfl, rfl⟩
